import Mathlib

/-!
Verification of the flight-logbook currency / certification and statistics
engines.  The definitions below are shallow embeddings of the corresponding
Python functions in `flights/utils/currency_calculator.py`,
`flights/utils/statistics.py` and `medicals/models.py`: Django querysets
become Lean lists, `DecimalField(decimal_places := 1)` values become
rationals, `datetime.date` becomes a calendar-date structure, and
`dateutil.relativedelta` month arithmetic is translated field by field.
-/

namespace FlightLog

/-! ### Calendar dates (embedding of `datetime.date` and `relativedelta`) -/

structure Date where
  year : Nat
  month : Nat
  day : Nat
deriving DecidableEq

/-- Python `date` comparison: lexicographic on (year, month, day). -/
def Date.le (a b : Date) : Prop :=
  a.year < b.year ∨
    (a.year = b.year ∧ (a.month < b.month ∨ (a.month = b.month ∧ a.day ≤ b.day)))

instance : DecidableRel Date.le := fun a b => by
  unfold Date.le; infer_instance

def isLeapYear (y : Nat) : Bool :=
  (y % 4 == 0 && y % 100 != 0) || y % 400 == 0

def daysInMonth (y m : Nat) : Nat :=
  if m = 2 then (if isLeapYear y then 29 else 28)
  else if m = 4 ∨ m = 6 ∨ m = 9 ∨ m = 11 then 30
  else 31

/-- A structurally valid calendar date. -/
def Date.valid (d : Date) : Prop :=
  1 ≤ d.month ∧ d.month ≤ 12 ∧ 1 ≤ d.day ∧ d.day ≤ daysInMonth d.year d.month

instance (d : Date) : Decidable d.valid := by
  unfold Date.valid; infer_instance

/-- `d + relativedelta(months := n)`: add `n` calendar months, clamping the
day to the length of the target month (dateutil semantics). -/
def Date.addMonthsClamped (d : Date) (n : Nat) : Date :=
  let t := d.year * 12 + (d.month - 1) + n
  ⟨t / 12, t % 12 + 1, min d.day (daysInMonth (t / 12) (t % 12 + 1))⟩

/-- `d + relativedelta(months := 1, day := 1)`: first day of the next month. -/
def Date.nextMonthFirstDay (d : Date) : Date :=
  let t := d.year * 12 + (d.month - 1) + 1
  ⟨t / 12, t % 12 + 1, 1⟩

/-- `d - relativedelta(days := 1)` / `d - timedelta(days := 1)`. -/
def Date.prevDay (d : Date) : Date :=
  if 1 < d.day then ⟨d.year, d.month, d.day - 1⟩
  else if 1 < d.month then ⟨d.year, d.month - 1, daysInMonth d.year (d.month - 1)⟩
  else ⟨d.year - 1, 12, 31⟩

def Date.nextDay (d : Date) : Date :=
  if d.day < daysInMonth d.year d.month then ⟨d.year, d.month, d.day + 1⟩
  else if d.month < 12 then ⟨d.year, d.month + 1, 1⟩
  else ⟨d.year + 1, 1, 1⟩

/-- `d + timedelta(days := n)`. -/
def Date.addDays (d : Date) (n : Nat) : Date := Date.nextDay^[n] d

/-- `d - timedelta(days := n)`. -/
def Date.subDays (d : Date) (n : Nat) : Date := Date.prevDay^[n] d

/-- Days in year `y` before month `m` starts. -/
def daysBeforeMonth (y : Nat) : Nat → Nat
  | 0 => 0
  | 1 => 0
  | m + 2 => daysBeforeMonth y (m + 1) + daysInMonth y (m + 1)

/-- Proleptic Gregorian ordinal, as in Python `date.toordinal`; used to embed
`(a - b).days`. -/
def Date.toDays (d : Date) : Int :=
  let y := d.year - 1
  ((365 * y + y / 4 - y / 100 + y / 400 + daysBeforeMonth d.year d.month + d.day : Nat) : Int)

/-- The calendar month numbered `t` in months-since-year-zero form. -/
def monthOfIdx (t : Nat) : Nat × Nat := (t / 12, t % 12 + 1)

/-- Month index (year * 12 + month - 1) of a date. -/
def Date.monthIdx (d : Date) : Nat := d.year * 12 + (d.month - 1)

/-- Last day of the calendar month with month index `t` (specification-side
helper: "last day of the month N calendar months after"). -/
def monthEndOfIdx (t : Nat) : Date :=
  ⟨t / 12, t % 12 + 1, daysInMonth (t / 12) (t % 12 + 1)⟩

/-! ### People and ledger records -/

inductive Role where
  | pilotRole
  | instructorRole
  | examinerRole
  | passengerRole
deriving DecidableEq

structure Person where
  id : Nat
  role : Role
deriving DecidableEq

/-- Embedding of `flights.models.Flight` (fields used by the statistics and
currency engines; decimal hour fields are rationals with one decimal place,
landing counts are non-negative integers per the data-model invariant). -/
structure Flight where
  date : Date
  flight_time : ℚ
  pic_time : ℚ
  sic_time : ℚ
  flight_training_received : ℚ
  xc_time : ℚ
  day_time : ℚ
  night_time : ℚ
  actual_instrument_time : ℚ
  simulated_instrument_time : ℚ
  day_landings : Nat
  day_fullstop_landings : Nat
  night_landings : Nat
  night_fullstop_landings : Nat
  plane_class : String
  instructor : Option Person
  passengers : List Person
deriving DecidableEq

/-- Embedding of `flights.models.Ground`. -/
structure Ground where
  date : Date
  ground_time : ℚ
  instructor : Person
deriving DecidableEq

/-- Embedding of `flights.models.SimulatorFlight`. -/
structure SimulatorFlight where
  date : Date
  simulated_instrument_time : ℚ
deriving DecidableEq

/-- Embedding of `medicals.models.Medical`. -/
structure Medical where
  classNumber : Nat
  examination_date : Date
deriving DecidableEq

/-! ### One-decimal rounding (`round(x, 1)` over exact decimal arithmetic) -/

/-- `round(x, 1)`: round to the nearest tenth. -/
def round1 (q : ℚ) : ℚ := ((round (10 * q) : ℤ) : ℚ) / 10

/-- A rational with at most one decimal place, the possible values of a
`DecimalField(decimal_places := 1)` column. -/
def IsTenth (q : ℚ) : Prop := ∃ n : ℤ, q = (n : ℚ) / 10

/-! ### Currency engine (`currency_calculator.check_passenger_currency`) -/

def dayCount (f : Flight) : Nat := f.day_landings

def nightCount (f : Flight) : Nat := f.night_fullstop_landings

/-- `order_by('-date')` comparison: descending flight date. -/
def byDateDesc (a b : Flight) : Prop := Date.le b.date a.date

instance : DecidableRel byDateDesc := fun a b =>
  inferInstanceAs (Decidable (Date.le b.date a.date))

instance : IsTotal Flight byDateDesc :=
  ⟨by intro a b; unfold byDateDesc Date.le; omega⟩

instance : IsTrans Flight byDateDesc :=
  ⟨by intro a b c; unfold byDateDesc Date.le; omega⟩

/-- The running-count scan of the expiry loop: accumulate landings over the
flights (given most-recent-first) until the total reaches 3; the flight that
gets there fixes the expiry at its date + 90 days. -/
def scanExpiry (cnt : Flight → Nat) : Nat → List Flight → Option Date
  | _, [] => none
  | c, f :: rest =>
    if 3 ≤ c + cnt f then some (Date.addDays f.date 90)
    else scanExpiry cnt (c + cnt f) rest

/-- Expiry computation of `check_passenger_currency`: filter to flights with
landings > 0, order by descending date, scan with a running count. -/
def currencyExpiry (cnt : Flight → Nat) (fs : List Flight) : Option Date :=
  scanExpiry cnt 0 (List.insertionSort byDateDesc (fs.filter fun f => decide (0 < cnt f)))

structure CurrencyStatus where
  day_current : Bool
  day_landings : Nat
  day_expiry : Option Date
  night_current : Bool
  night_landings : Nat
  night_expiry : Option Date
deriving DecidableEq

/-- Embedding of `check_passenger_currency` (with the reference date `today`
made explicit). -/
def check_passenger_currency (fs : List Flight) (today : Date) : CurrencyStatus :=
  let ninety_days_ago := Date.subDays today 90
  let recent := fs.filter fun f => decide (Date.le ninety_days_ago f.date)
  let day_landings := (recent.map dayCount).sum
  let night_landings := (recent.map nightCount).sum
  { day_current := decide (3 ≤ day_landings)
    day_landings := day_landings
    day_expiry := currencyExpiry dayCount fs
    night_current := decide (3 ≤ night_landings)
    night_landings := night_landings
    night_expiry := currencyExpiry nightCount fs }

/-- Specification-side landing count over the closed window
`[as_of - 90 days, as_of]`, following the spec sentence "flights dated within
the trailing 90 days ending at as_of". -/
def windowLandingSum (cnt : Flight → Nat) (fs : List Flight) (as_of : Date) : Nat :=
  ((fs.filter fun f =>
      decide (Date.le (Date.subDays as_of 90) f.date) && decide (Date.le f.date as_of)).map cnt).sum

/-! ### Medical model (`medicals.models.Medical`) -/

/-- Shared month-end computation of the three expiry getters:
`exam + relativedelta(months := n)`, then `+ relativedelta(months := 1, day := 1)`,
then `- relativedelta(days := 1)`. -/
def Medical.privilegeExpiry (m : Medical) (n : Nat) : Date :=
  ((m.examination_date.addMonthsClamped n).nextMonthFirstDay).prevDay

def Medical.get_first_class_expiry (m : Medical) : Option Date :=
  if m.classNumber ≠ 1 then none
  else some (m.privilegeExpiry 12)

def Medical.get_second_class_expiry (m : Medical) : Option Date :=
  if ¬(m.classNumber = 1 ∨ m.classNumber = 2) then none
  else some (m.privilegeExpiry 12)

def Medical.get_third_class_expiry (m : Medical) : Option Date :=
  some (m.privilegeExpiry 60)

/-- Embedding of `get_current_privilege_level`; inside each guarded branch the
corresponding expiry getter returns `privilegeExpiry`. -/
def Medical.get_current_privilege_level (m : Medical) (as_of : Date) : Option Nat :=
  if m.classNumber = 1 ∧ Date.le as_of (m.privilegeExpiry 12) then some 1
  else if (m.classNumber = 1 ∨ m.classNumber = 2) ∧ Date.le as_of (m.privilegeExpiry 12) then some 2
  else if Date.le as_of (m.privilegeExpiry 60) then some 3
  else none

def Medical.get_next_expiration_date (m : Medical) (as_of : Date) : Option Date :=
  match m.get_current_privilege_level as_of with
  | some 1 => m.get_first_class_expiry
  | some 2 => m.get_second_class_expiry
  | some 3 => m.get_third_class_expiry
  | _ => none

/-- Specification-side expiry: the last day of the month `n` calendar months
after `d` ("calendar-month arithmetic, then snap to month-end"). -/
def specExpiryAfterMonths (d : Date) (n : Nat) : Date :=
  monthEndOfIdx (d.monthIdx + n)

/-- Specification-side privilege level: the highest class (1 > 2 > 3) the
certificate holder is eligible for whose month-end expiry is on or after
`as_of`; none if no window covers `as_of`. -/
def specCurrentClass (m : Medical) (as_of : Date) : Option Nat :=
  if m.classNumber = 1 ∧ Date.le as_of (specExpiryAfterMonths m.examination_date 12) then some 1
  else if (m.classNumber = 1 ∨ m.classNumber = 2) ∧
      Date.le as_of (specExpiryAfterMonths m.examination_date 12) then some 2
  else if Date.le as_of (specExpiryAfterMonths m.examination_date 60) then some 3
  else none

structure MedicalStatus where
  has_medical : Bool
  original_class : Option Nat
  current_class : Option Nat
  examination_date : Option Date
  expiry : Option Date
  first_class_expiry : Option Date
  second_class_expiry : Option Date
  third_class_expiry : Option Date
  days_remaining : Option Int
  status : String
deriving DecidableEq

/-- The fail-soft "none" result of `check_medical_status`. -/
def noMedicalStatus : MedicalStatus :=
  ⟨false, none, none, none, none, none, none, none, none, "none"⟩

/-- Embedding of `check_medical_status`.  The fallible scan for the latest
medical record (the body of the `try` block up to the `first()` call) is
passed in as an `Except` value; the surrounding `try/except Exception`
turns any error into the "none" result. -/
def check_medical_status (scanned : Except String (Option Medical)) (today : Date) :
    MedicalStatus :=
  match scanned with
  | .error _ => noMedicalStatus
  | .ok none => noMedicalStatus
  | .ok (some m) =>
    let current_privilege := m.get_current_privilege_level today
    let next_expiry := m.get_next_expiration_date today
    let days_remaining : Option Int := next_expiry.map (fun e => e.toDays - today.toDays)
    let status :=
      match current_privilege, days_remaining with
      | none, _ => "expired"
      | some _, some d => if d < 30 then "critical" else if d < 60 then "warning" else "current"
      | some _, none => "expired"
    { has_medical := true
      original_class := some m.classNumber
      current_class := current_privilege
      examination_date := some m.examination_date
      expiry := next_expiry
      first_class_expiry := m.get_first_class_expiry
      second_class_expiry := m.get_second_class_expiry
      third_class_expiry := m.get_third_class_expiry
      days_remaining := days_remaining
      status := status }

/-! ### Statistics engine (`flights/utils/statistics.py`) -/

structure TotalTimes where
  total_time : ℚ
  pic_time : ℚ
  sic_time : ℚ
  dual_time : ℚ
  xc_time : ℚ
  day_time : ℚ
  night_time : ℚ
  actual_instrument : ℚ
  simulated_instrument : ℚ
  day_landings : Nat
  night_landings : Nat
  total_landings : Nat
deriving DecidableEq

/-- Embedding of `get_total_times`: per-category sums, rounded to one decimal
at the output boundary. -/
def get_total_times (fs : List Flight) : TotalTimes :=
  { total_time := round1 ((fs.map (·.flight_time)).sum)
    pic_time := round1 ((fs.map (·.pic_time)).sum)
    sic_time := round1 ((fs.map (·.sic_time)).sum)
    dual_time := round1 ((fs.map (·.flight_training_received)).sum)
    xc_time := round1 ((fs.map (·.xc_time)).sum)
    day_time := round1 ((fs.map (·.day_time)).sum)
    night_time := round1 ((fs.map (·.night_time)).sum)
    actual_instrument := round1 ((fs.map (·.actual_instrument_time)).sum)
    simulated_instrument := round1 ((fs.map (·.simulated_instrument_time)).sum)
    day_landings := (fs.map (·.day_landings)).sum
    night_landings := (fs.map (·.night_landings)).sum
    total_landings := (fs.map (·.day_landings)).sum + (fs.map (·.day_fullstop_landings)).sum +
      (fs.map (·.night_landings)).sum + (fs.map (·.night_fullstop_landings)).sum }

/-- Month index of the first bucket:
`(now - relativedelta(months := months - 1)).replace(day := 1)`. -/
def startMonthIdx (today : Date) (months : Nat) : Nat :=
  today.monthIdx - (months - 1)

/-- The start date of the breakdown window (first day of that month). -/
def startDate (today : Date) (months : Nat) : Date :=
  ⟨startMonthIdx today months / 12, startMonthIdx today months % 12 + 1, 1⟩

/-- The `TruncMonth`-grouped sum behind `hours_by_month`: total flight time of
the flights dated on/after `start` that fall in the month with index `t`
(months with no such flights give 0, matching `.get(month_key, 0)`). -/
def monthHours (fs : List Flight) (start : Date) (t : Nat) : ℚ :=
  ((fs.filter fun f => decide (Date.le start f.date) && decide (f.date.monthIdx = t)).map
    (·.flight_time)).sum

structure MonthEntry where
  month : Nat
  hours : ℚ
deriving DecidableEq

/-- Embedding of `get_monthly_breakdown`: one entry per month of the trailing
window, in chronological order, months without flights zero-filled.  The
month label `current.strftime('%b %Y')` is abstracted to the month index. -/
def get_monthly_breakdown (fs : List Flight) (today : Date) (months : Nat) : List MonthEntry :=
  (List.range months).map fun i =>
    { month := startMonthIdx today months + i
      hours := monthHours fs (startDate today months) (startMonthIdx today months + i) }

/-- Specification-side window predicate for the 12-month breakdown: dated
between the first day of the month 11 months before the current month and the
last day of the current month. -/
def inBreakdownWindow (today : Date) (f : Flight) : Prop :=
  Date.le (startDate today 12) f.date ∧ Date.le f.date (monthEndOfIdx today.monthIdx)

instance (today : Date) (f : Flight) : Decidable (inBreakdownWindow today f) := by
  unfold inBreakdownWindow; infer_instance

structure InstrumentBreakdown where
  actual : ℚ
  flight_simulated : ℚ
  simulator_simulated : ℚ
  simulated : ℚ
  total : ℚ
deriving DecidableEq

/-- Embedding of `get_instrument_breakdown`. -/
def get_instrument_breakdown (fs : List Flight) (sims : List SimulatorFlight) :
    InstrumentBreakdown :=
  let actual := (fs.map (·.actual_instrument_time)).sum
  let flight_simulated := (fs.map (·.simulated_instrument_time)).sum
  let simulator_simulated := (sims.map (·.simulated_instrument_time)).sum
  let total_simulated := flight_simulated + simulator_simulated
  { actual := round1 actual
    flight_simulated := round1 flight_simulated
    simulator_simulated := round1 simulator_simulated
    simulated := round1 total_simulated
    total := round1 (actual + total_simulated) }

/-- Embedding of `get_xc_pic_time`: cross-country time over flights with both
`xc_time > 0` and `pic_time > 0`. -/
def get_xc_pic_time (fs : List Flight) : ℚ :=
  round1 (((fs.filter fun f => decide (0 < f.xc_time) && decide (0 < f.pic_time)).map
    (·.xc_time)).sum)

structure IRProgress where
  actual : ℚ
  flight_simulated : ℚ
  simulator_simulated : ℚ
  simulated : ℚ
  creditable_simulated : ℚ
  creditable_total : ℚ
  remaining : ℚ
  percentage : ℚ
  xc_pic_time : ℚ
  xc_pic_required : ℚ
  xc_pic_remaining : ℚ
  xc_pic_percentage : ℚ
deriving DecidableEq

/-- Embedding of `get_instrument_rating_progress`. -/
def get_instrument_rating_progress (fs : List Flight) (sims : List SimulatorFlight) :
    IRProgress :=
  let b := get_instrument_breakdown fs sims
  let xc_pic_time := get_xc_pic_time fs
  let creditable_simulator_simulated := min b.simulator_simulated 20
  let creditable_simulated := b.flight_simulated + creditable_simulator_simulated
  let creditable_total := b.actual + creditable_simulated
  let remaining := max 0 (40 - creditable_total)
  let percentage := min 100 (creditable_total / 40 * 100)
  let required_xc_pic : ℚ := 50
  { actual := b.actual
    flight_simulated := b.flight_simulated
    simulator_simulated := b.simulator_simulated
    simulated := b.simulated
    creditable_simulated := round1 creditable_simulated
    creditable_total := round1 creditable_total
    remaining := round1 remaining
    percentage := round1 percentage
    xc_pic_time := xc_pic_time
    xc_pic_required := required_xc_pic
    xc_pic_remaining := round1 (max 0 (required_xc_pic - xc_pic_time))
    xc_pic_percentage := round1 (min 100 (xc_pic_time / required_xc_pic * 100)) }

/-! ### Instructor leaderboard -/

/-- Role filter of the leaderboard querysets:
`instructor__isnull = False` and role Instructor or Examiner. -/
def qualInstructor : Option Person → Bool
  | some p => p.role == Role.instructorRole || p.role == Role.examinerRole
  | none => false

structure InstructorEntry where
  pilotId : Nat
  flight_count : Nat
  ground_count : Nat
  flight_time : ℚ
  ground_time : ℚ
  total_time : ℚ
deriving DecidableEq

/-- One step of the flight loop of `get_instructor_leaderboard`: bump (or
create) the dictionary entry of instructor `pid`.  A new key is appended at
the end, as in a Python dict. -/
def addFlightEntry : List InstructorEntry → Nat → ℚ → List InstructorEntry
  | [], pid, t => [⟨pid, 1, 0, t, 0, t⟩]
  | e :: rest, pid, t =>
    if e.pilotId = pid then
      { e with
        flight_count := e.flight_count + 1
        flight_time := e.flight_time + t
        total_time := e.total_time + t } :: rest
    else e :: addFlightEntry rest pid t

/-- One step of the ground loop of `get_instructor_leaderboard`. -/
def addGroundEntry : List InstructorEntry → Nat → ℚ → List InstructorEntry
  | [], pid, t => [⟨pid, 0, 1, 0, t, t⟩]
  | e :: rest, pid, t =>
    if e.pilotId = pid then
      { e with
        ground_count := e.ground_count + 1
        ground_time := e.ground_time + t
        total_time := e.total_time + t } :: rest
    else e :: addGroundEntry rest pid t

/-- The accumulated `instructor_stats` dictionary, in insertion order. -/
def instructorStats (fs : List Flight) (gs : List Ground) : List InstructorEntry :=
  let qualFlights := fs.filter fun f => qualInstructor f.instructor
  let qualGrounds := gs.filter fun g => qualInstructor (some g.instructor)
  let afterFlights := qualFlights.foldl
    (fun acc f =>
      match f.instructor with
      | some p => addFlightEntry acc p.id f.flight_time
      | none => acc) []
  qualGrounds.foldl (fun acc g => addGroundEntry acc g.instructor.id g.ground_time) afterFlights

/-- `sorted(..., key := total_time, reverse := True)` comparison. -/
def totalTimeGE (a b : InstructorEntry) : Prop := b.total_time ≤ a.total_time

instance : DecidableRel totalTimeGE := fun a b =>
  inferInstanceAs (Decidable (b.total_time ≤ a.total_time))

instance : IsTotal InstructorEntry totalTimeGE :=
  ⟨by intro a b; unfold totalTimeGE; exact le_total b.total_time a.total_time⟩

instance : IsTrans InstructorEntry totalTimeGE :=
  ⟨fun _ _ _ h h₂ => le_trans h₂ h⟩

/-- Embedding of `get_instructor_leaderboard`: rank descending by total time,
truncate to `limit`, round the times of the returned entries. -/
def get_instructor_leaderboard (fs : List Flight) (gs : List Ground) (limit : Nat) :
    List InstructorEntry :=
  let sorted := List.insertionSort totalTimeGE (instructorStats fs gs)
  (sorted.take limit).map fun e =>
    { e with
      flight_time := round1 e.flight_time
      ground_time := round1 e.ground_time
      total_time := round1 e.total_time }

/-- Does flight `f` name the instructor with id `pid` (any role)? -/
def instructorIdIs (pid : Nat) (f : Flight) : Bool :=
  match f.instructor with
  | some p => p.id == pid
  | none => false

/-- Does flight `f` carry instructor `pid` (with a qualifying role)? -/
def flightOfInstructor (pid : Nat) (f : Flight) : Bool :=
  qualInstructor f.instructor && instructorIdIs pid f

/-- Does ground session `g` carry instructor `pid` (with a qualifying role)? -/
def groundOfInstructor (pid : Nat) (g : Ground) : Bool :=
  qualInstructor (some g.instructor) && g.instructor.id == pid

/-- Lookup of the first leaderboard dictionary entry with the given id. -/
def findEntry (pid : Nat) : List InstructorEntry → Option InstructorEntry
  | [] => none
  | e :: rest => if e.pilotId = pid then some e else findEntry pid rest

/-! ### Aircraft class breakdown -/

structure ClassEntry where
  plane_class : String
  hours : ℚ
  flight_count : Nat
  percentage : ℚ
deriving DecidableEq

/-- The distinct plane classes of the ledger, in first-occurrence order
(the group-by keys of `.values('plane__plane_class')`). -/
def classKeys (fs : List Flight) : List String :=
  fs.foldl (fun acc f => if f.plane_class ∈ acc then acc else acc ++ [f.plane_class]) []

/-- Grouped flight-time sum of one plane class. -/
def classHours (fs : List Flight) (c : String) : ℚ :=
  ((fs.filter fun f => f.plane_class == c).map (·.flight_time)).sum

/-- Grouped flight count of one plane class. -/
def classFlightCount (fs : List Flight) (c : String) : Nat :=
  (fs.filter fun f => f.plane_class == c).length

/-- Embedding of `get_aircraft_class_breakdown`. -/
def get_aircraft_class_breakdown (fs : List Flight) : List ClassEntry :=
  let keys := classKeys fs
  let total_hours := (keys.map (classHours fs)).sum
  keys.map fun c =>
    { plane_class := c
      hours := round1 (classHours fs c)
      flight_count := classFlightCount fs c
      percentage := round1 (if 0 < total_hours then classHours fs c / total_hours * 100 else 0) }

/-! ### People counts and role distribution -/

structure PeopleCounts where
  unique_passengers : Nat
  unique_instructors : Nat
  total_unique_people : Nat
  total_interactions : Nat
deriving DecidableEq

/-- Embedding of `get_unique_people_counts`.  Note the interaction check uses
`flight.instructor` truthiness (any role), while the instructor set is
role-filtered. -/
def get_unique_people_counts (fs : List Flight) : PeopleCounts :=
  let res := fs.foldl
    (fun (st : Finset Nat × Finset Nat × Nat) f =>
      let qp := f.passengers.filter fun p => p.role == Role.passengerRole
      let passSet := st.1 ∪ (qp.map (·.id)).toFinset
      let instSet :=
        match f.instructor with
        | some p =>
          if p.role = Role.instructorRole ∨ p.role = Role.examinerRole then
            insert p.id st.2.1
          else st.2.1
        | none => st.2.1
      let interactions := if qp ≠ [] ∨ f.instructor.isSome then st.2.2 + 1 else st.2.2
      (passSet, instSet, interactions))
    (∅, ∅, 0)
  { unique_passengers := res.1.card
    unique_instructors := res.2.1.card
    total_unique_people := (res.1 ∪ res.2.1).card
    total_interactions := res.2.2 }

structure RoleDistribution where
  solo_flights : Nat
  passenger_flights : Nat
  instruction_flights : Nat
deriving DecidableEq

/-- Embedding of `get_people_role_distribution`. -/
def get_people_role_distribution (fs : List Flight) : RoleDistribution :=
  fs.foldl
    (fun st f =>
      let has_passengers : Bool :=
        decide ((f.passengers.filter fun p => p.role == Role.passengerRole) ≠ [])
      let has_instructor : Bool :=
        match f.instructor with
        | some p => p.role == Role.instructorRole || p.role == Role.examinerRole
        | none => false
      { solo_flights := st.solo_flights + (if ¬has_passengers ∧ ¬has_instructor then 1 else 0)
        passenger_flights := st.passenger_flights + (if has_passengers then 1 else 0)
        instruction_flights := st.instruction_flights + (if has_instructor then 1 else 0) })
    ⟨0, 0, 0⟩

/-! ### Concrete ledgers used as evaluation inputs -/

/-- A flight record with every numeric field zero; concrete ledgers override
the fields they exercise. -/
def baseFlight (d : Date) : Flight :=
  { date := d
    flight_time := 0
    pic_time := 0
    sic_time := 0
    flight_training_received := 0
    xc_time := 0
    day_time := 0
    night_time := 0
    actual_instrument_time := 0
    simulated_instrument_time := 0
    day_landings := 0
    day_fullstop_landings := 0
    night_landings := 0
    night_fullstop_landings := 0
    plane_class := "Single Engine Land"
    instructor := none
    passengers := [] }

/-- Three one-landing flights a month apart (both day and night). -/
def currencyLedger : List Flight :=
  [ { baseFlight ⟨2025, 1, 1⟩ with day_landings := 1, night_fullstop_landings := 1 },
    { baseFlight ⟨2025, 2, 1⟩ with day_landings := 1, night_fullstop_landings := 1 },
    { baseFlight ⟨2025, 3, 1⟩ with day_landings := 1, night_fullstop_landings := 1 } ]

def c7Today : Date := ⟨2025, 6, 1⟩

/-- A flight dated one day after the reference date, with 3 day landings. -/
def futureFlightLedger : List Flight :=
  [ { baseFlight (Date.addDays c7Today 1) with day_landings := 3 } ]

/-- One day landing each at 95, 70 and 40 days before the reference date. -/
def staleLedger : List Flight :=
  [ { baseFlight (Date.subDays c7Today 95) with day_landings := 1 },
    { baseFlight (Date.subDays c7Today 70) with day_landings := 1 },
    { baseFlight (Date.subDays c7Today 40) with day_landings := 1 } ]

/-- A class-1 medical examined on 2024-01-15. -/
def exMedical : Medical := ⟨1, ⟨2024, 1, 15⟩⟩

/-- Flights with 25 h actual and 5 h flight-simulated instrument time. -/
def irFlights : List Flight :=
  [ { baseFlight ⟨2024, 5, 1⟩ with actual_instrument_time := 25 },
    { baseFlight ⟨2024, 5, 2⟩ with simulated_instrument_time := 5 } ]

/-- One simulator session with 30 h simulated instrument time. -/
def irSims : List SimulatorFlight := [⟨⟨2024, 5, 3⟩, 30⟩]

def instrA : Person := ⟨1, Role.instructorRole⟩

def instrB : Person := ⟨2, Role.instructorRole⟩

/-- Instructor A: flights of 3.0 h and 2.0 h; instructor B: one 10.0 h flight. -/
def leaderboardFlights : List Flight :=
  [ { baseFlight ⟨2025, 1, 1⟩ with flight_time := 3, instructor := some instrA },
    { baseFlight ⟨2025, 1, 2⟩ with flight_time := 2, instructor := some instrA },
    { baseFlight ⟨2025, 1, 3⟩ with flight_time := 10, instructor := some instrB } ]

/-- Instructor A: one 1.0 h ground session. -/
def leaderboardGrounds : List Ground := [⟨⟨2025, 1, 4⟩, 1, instrA⟩]

def statToday : Date := ⟨2025, 6, 15⟩

/-- Flights of 2.5 h and 1.5 h inside the trailing 12-month window of
`statToday` and 4.0 h just before it. -/
def breakdownLedger : List Flight :=
  [ { baseFlight ⟨2025, 3, 10⟩ with flight_time := 5 / 2 },
    { baseFlight ⟨2024, 6, 1⟩ with flight_time := 4 },
    { baseFlight ⟨2024, 7, 2⟩ with flight_time := 3 / 2 } ]

/-- Two plane classes with 3.0 h and 1.0 h. -/
def classLedger : List Flight :=
  [ { baseFlight ⟨2025, 1, 1⟩ with flight_time := 3 },
    { baseFlight ⟨2025, 1, 2⟩ with flight_time := 1, plane_class := "Multi Engine Land" } ]

/-- Two plane classes, all flight times zero. -/
def zeroHoursLedger : List Flight :=
  [ baseFlight ⟨2025, 1, 1⟩,
    { baseFlight ⟨2025, 1, 2⟩ with plane_class := "Multi Engine Land" } ]

/-- One flight whose "instructor" has role Pilot and with no passengers. -/
def nonQualLedger : List Flight :=
  [ { baseFlight ⟨2025, 2, 1⟩ with instructor := some ⟨7, Role.pilotRole⟩ } ]

/-! ### Date and rounding lemmas -/

theorem Date.le_refl (d : Date) : Date.le d d := by
  unfold Date.le; omega

theorem Date.le_total (a b : Date) : Date.le a b ∨ Date.le b a := by
  unfold Date.le; omega

theorem round1_zero : round1 0 = 0 := by
  unfold round1
  norm_num

theorem IsTenth.round1_eq {q : ℚ} (h : IsTenth q) : round1 q = q := by
  obtain ⟨n, rfl⟩ := h
  unfold round1
  rw [show (10 : ℚ) * ((n : ℚ) / 10) = (n : ℚ) by ring, round_intCast]

theorem IsTenth.add {a b : ℚ} (ha : IsTenth a) (hb : IsTenth b) : IsTenth (a + b) := by
  obtain ⟨n, rfl⟩ := ha
  obtain ⟨m, rfl⟩ := hb
  exact ⟨n + m, by push_cast; ring⟩

theorem IsTenth.sub {a b : ℚ} (ha : IsTenth a) (hb : IsTenth b) : IsTenth (a - b) := by
  obtain ⟨n, rfl⟩ := ha
  obtain ⟨m, rfl⟩ := hb
  exact ⟨n - m, by push_cast; ring⟩

theorem IsTenth.min {a b : ℚ} (ha : IsTenth a) (hb : IsTenth b) : IsTenth (min a b) := by
  rcases le_total a b with h | h
  · rwa [min_eq_left h]
  · rwa [min_eq_right h]

theorem IsTenth.max {a b : ℚ} (ha : IsTenth a) (hb : IsTenth b) : IsTenth (max a b) := by
  rcases le_total a b with h | h
  · rwa [max_eq_right h]
  · rwa [max_eq_left h]

theorem isTenth_intCast (n : ℤ) : IsTenth (n : ℚ) :=
  ⟨10 * n, by push_cast; ring⟩

theorem isTenth_listSum {l : List ℚ} (h : ∀ x ∈ l, IsTenth x) : IsTenth l.sum := by
  induction l with
  | nil => exact ⟨0, by norm_num⟩
  | cons a l ih =>
    rw [List.sum_cons]
    exact (h a (List.mem_cons_self a l)).add (ih fun x hx => h x (List.mem_cons_of_mem a hx))

theorem isTenth_mapSum {α : Type} {l : List α} {g : α → ℚ} (h : ∀ x ∈ l, IsTenth (g x)) :
    IsTenth ((l.map g).sum) := by
  refine isTenth_listSum fun x hx => ?_
  obtain ⟨a, ha, rfl⟩ := List.mem_map.mp hx
  exact h a ha

theorem abs_round1_sub (x : ℚ) : |round1 x - x| ≤ 1 / 20 := by
  unfold round1
  have h := abs_sub_round (10 * x)
  rw [abs_sub_comm] at h
  have h2 : ((round (10 * x) : ℤ) : ℚ) / 10 - x = ((round (10 * x) : ℤ) - 10 * x) / 10 := by
    ring
  rw [h2, abs_div]
  rw [show |(10 : ℚ)| = 10 by norm_num]
  linarith

/-! ### C2: medical privilege windows -/

theorem monthEnd_calc (d : Date) (n : Nat) :
    ((d.addMonthsClamped n).nextMonthFirstDay).prevDay = specExpiryAfterMonths d n := by
  unfold Date.addMonthsClamped Date.nextMonthFirstDay Date.prevDay specExpiryAfterMonths
    monthEndOfIdx Date.monthIdx
  simp only
  set T := d.year * 12 + (d.month - 1) + n with hT
  have ht2 : T / 12 * 12 + (T % 12 + 1 - 1) + 1 = T + 1 := by omega
  rw [ht2]
  rcases Nat.eq_zero_or_pos ((T + 1) % 12) with h0 | hpos
  · rw [if_neg (by omega), if_neg (by omega)]
    have hy : (T + 1) / 12 - 1 = T / 12 := by omega
    have hm : T % 12 + 1 = 12 := by omega
    rw [hy, hm]
    have : daysInMonth (T / 12) 12 = 31 := by simp [daysInMonth]
    rw [this]
  · rw [if_neg (by omega), if_pos (by omega)]
    have hy : (T + 1) / 12 = T / 12 := by omega
    have hm : (T + 1) % 12 + 1 - 1 = T % 12 + 1 := by omega
    rw [hy, hm]

theorem Medical.privilegeExpiry_eq (m : Medical) (n : Nat) :
    m.privilegeExpiry n = specExpiryAfterMonths m.examination_date n :=
  monthEnd_calc m.examination_date n

/-- C2: first- and second-class privileges of a class-1 medical expire on the
last day of the month 12 calendar months after the examination date, third
class 60 months after; the current privilege level is the highest eligible
class whose month-end expiry is on or after `as_of` (none if all have
passed); and the 2024-01-15 class-1 example yields expiries 2025-01-31 /
2029-01-31 with current class 3 at 2025-02-01. -/
theorem medical_privilege_spec :
    (∀ m : Medical, m.classNumber = 1 →
        m.get_first_class_expiry = some (specExpiryAfterMonths m.examination_date 12) ∧
        m.get_second_class_expiry = some (specExpiryAfterMonths m.examination_date 12)) ∧
    (∀ m : Medical,
        m.get_third_class_expiry = some (specExpiryAfterMonths m.examination_date 60)) ∧
    (∀ (m : Medical) (as_of : Date),
        m.get_current_privilege_level as_of = specCurrentClass m as_of) ∧
    (exMedical.get_first_class_expiry = some ⟨2025, 1, 31⟩ ∧
      exMedical.get_second_class_expiry = some ⟨2025, 1, 31⟩ ∧
      exMedical.get_third_class_expiry = some ⟨2029, 1, 31⟩ ∧
      exMedical.get_current_privilege_level ⟨2025, 2, 1⟩ = some 3) := by
  refine ⟨fun m h => ?_, fun m => ?_, fun m as_of => ?_, ?_⟩
  · constructor
    · rw [Medical.get_first_class_expiry, if_neg (by omega), Medical.privilegeExpiry_eq]
    · rw [Medical.get_second_class_expiry, if_neg (by omega), Medical.privilegeExpiry_eq]
  · rw [Medical.get_third_class_expiry, Medical.privilegeExpiry_eq]
  · rw [Medical.get_current_privilege_level, specCurrentClass]
    simp only [Medical.privilegeExpiry_eq]
  · refine ⟨?_, ?_, ?_, ?_⟩ <;> decide

/-- Witness for `medical_privilege_spec`: the class-1 hypothesis is
discharged on the concrete 2024-01-15 medical. -/
theorem medical_privilege_spec_witness :
    exMedical.classNumber = 1 ∧
    exMedical.get_first_class_expiry = some (specExpiryAfterMonths exMedical.examination_date 12) ∧
    exMedical.get_third_class_expiry = some (specExpiryAfterMonths exMedical.examination_date 60) ∧
    exMedical.get_current_privilege_level ⟨2025, 2, 1⟩ = specCurrentClass exMedical ⟨2025, 2, 1⟩ :=
  ⟨rfl, (medical_privilege_spec.1 exMedical rfl).1, medical_privilege_spec.2.1 exMedical,
    medical_privilege_spec.2.2.1 exMedical ⟨2025, 2, 1⟩⟩

/-! ### C8: fail-soft medical status -/

/-- C8: any error while scanning for the latest medical record, and the
no-record case, both yield the safe "none" status: `has_medical = false`,
all other fields null, status string "none". -/
theorem medical_status_fail_soft :
    ∀ (scanned : Except String (Option Medical)) (today : Date),
      (∃ msg, scanned = Except.error msg) ∨ scanned = Except.ok none →
      check_medical_status scanned today =
        ⟨false, none, none, none, none, none, none, none, none, "none"⟩ := by
  intro scanned today h
  rcases h with ⟨msg, rfl⟩ | rfl <;> rfl

/-- Witness for `medical_status_fail_soft` at a concrete failed scan. -/
theorem medical_status_fail_soft_witness :
    ((∃ msg, (Except.error "scan failure" : Except String (Option Medical)) = Except.error msg) ∨
      (Except.error "scan failure" : Except String (Option Medical)) = Except.ok none) ∧
    check_medical_status (Except.error "scan failure") ⟨2025, 1, 1⟩ =
      ⟨false, none, none, none, none, none, none, none, none, "none"⟩ :=
  ⟨Or.inl ⟨"scan failure", rfl⟩,
    medical_status_fail_soft (Except.error "scan failure") ⟨2025, 1, 1⟩
      (Or.inl ⟨"scan failure", rfl⟩)⟩

/-! ### C10: interaction count counts non-qualifying instructors -/

/-- C10: a flight whose instructor has role Pilot and which carries no
qualifying passengers increments `total_interactions` yet adds no one to
`unique_instructors`, and `people_role_distribution` classifies it as solo,
so `total_interactions` exceeds the number of non-solo flights. -/
theorem interaction_count_role_mismatch :
    (get_unique_people_counts nonQualLedger).total_interactions = 1 ∧
    (get_unique_people_counts nonQualLedger).unique_instructors = 0 ∧
    get_people_role_distribution nonQualLedger = ⟨1, 0, 0⟩ ∧
    (get_people_role_distribution nonQualLedger).passenger_flights +
        (get_people_role_distribution nonQualLedger).instruction_flights <
      (get_unique_people_counts nonQualLedger).total_interactions ∧
    nonQualLedger.length - (get_people_role_distribution nonQualLedger).solo_flights <
      (get_unique_people_counts nonQualLedger).total_interactions := by
  refine ⟨?_, ?_, ?_, ?_, ?_⟩ <;> decide

/-! ### C3: instrument-rating creditable hours -/

/-- C3: the instrument-rating progress output satisfies
`creditable_total = actual + min(simulator_simulated, 20) + flight_simulated`
(simulator-device time capped at 20, flight-device time uncapped) and
`remaining = max(0, 40 - creditable_total)` exactly, while `creditable_total`
itself is not clamped to 40 (it reaches 50 on the concrete ledger). -/
theorem ir_progress_spec :
    (∀ (fs : List Flight) (sims : List SimulatorFlight),
      (∀ f ∈ fs, IsTenth f.actual_instrument_time ∧ IsTenth f.simulated_instrument_time) →
      (∀ s ∈ sims, IsTenth s.simulated_instrument_time) →
      (get_instrument_rating_progress fs sims).creditable_total =
          (get_instrument_rating_progress fs sims).actual +
            min (get_instrument_rating_progress fs sims).simulator_simulated 20 +
            (get_instrument_rating_progress fs sims).flight_simulated ∧
      (get_instrument_rating_progress fs sims).remaining =
          max 0 (40 - (get_instrument_rating_progress fs sims).creditable_total)) ∧
    (get_instrument_rating_progress irFlights irSims).creditable_total = 50 ∧
    40 < (get_instrument_rating_progress irFlights irSims).creditable_total := by
  have hval : (get_instrument_rating_progress irFlights irSims).creditable_total = 50 := by
    simp only [get_instrument_rating_progress, get_instrument_breakdown, irFlights, irSims,
      baseFlight, List.map_cons, List.map_nil, List.sum_cons, List.sum_nil]
    norm_num [round1, round_eq, min_def]
  refine ⟨fun fs sims hf hs => ?_, hval, by rw [hval]; norm_num⟩
  have hA : IsTenth ((fs.map (·.actual_instrument_time)).sum) :=
    isTenth_mapSum fun f h => (hf f h).1
  have hFS : IsTenth ((fs.map (·.simulated_instrument_time)).sum) :=
    isTenth_mapSum fun f h => (hf f h).2
  have hSS : IsTenth ((sims.map (·.simulated_instrument_time)).sum) := isTenth_mapSum hs
  have h20 : IsTenth (20 : ℚ) := ⟨200, by norm_num⟩
  have h40 : IsTenth (40 : ℚ) := ⟨400, by norm_num⟩
  have h0 : IsTenth (0 : ℚ) := ⟨0, by norm_num⟩
  simp only [get_instrument_rating_progress, get_instrument_breakdown]
  rw [hA.round1_eq, hFS.round1_eq, hSS.round1_eq]
  have hct : IsTenth ((fs.map (·.actual_instrument_time)).sum +
      ((fs.map (·.simulated_instrument_time)).sum +
        min ((sims.map (·.simulated_instrument_time)).sum) 20)) :=
    hA.add (hFS.add (hSS.min h20))
  rw [hct.round1_eq]
  constructor
  · ring
  · rw [IsTenth.round1_eq (h0.max (h40.sub hct))]

/-- Witness for `ir_progress_spec`: the one-decimal hypotheses are discharged
on the concrete 25 h actual / 5 h flight-simulated / 30 h simulator ledger. -/
theorem ir_progress_spec_witness :
    (get_instrument_rating_progress irFlights irSims).creditable_total =
        (get_instrument_rating_progress irFlights irSims).actual +
          min (get_instrument_rating_progress irFlights irSims).simulator_simulated 20 +
          (get_instrument_rating_progress irFlights irSims).flight_simulated ∧
    (get_instrument_rating_progress irFlights irSims).remaining =
        max 0 (40 - (get_instrument_rating_progress irFlights irSims).creditable_total) :=
  ir_progress_spec.1 irFlights irSims
    (by
      intro f hf
      fin_cases hf
      · exact ⟨⟨250, by norm_num [baseFlight]⟩, ⟨0, by norm_num [baseFlight]⟩⟩
      · exact ⟨⟨0, by norm_num [baseFlight]⟩, ⟨50, by norm_num [baseFlight]⟩⟩)
    (by
      intro s hs
      fin_cases hs
      exact ⟨300, by norm_num⟩)

/-! ### C9: class-breakdown percentages -/

theorem listSum_round1_err (l : List ℚ) :
    |(l.map round1).sum - l.sum| ≤ (l.length : ℚ) * (1 / 20) := by
  induction l with
  | nil => simp
  | cons a l ih =>
    simp only [List.map_cons, List.sum_cons, List.length_cons]
    have h1 := abs_round1_sub a
    calc |round1 a + (l.map round1).sum - (a + l.sum)|
        = |(round1 a - a) + ((l.map round1).sum - l.sum)| := by ring_nf
      _ ≤ |round1 a - a| + |(l.map round1).sum - l.sum| := abs_add _ _
      _ ≤ 1 / 20 + (l.length : ℚ) * (1 / 20) := add_le_add h1 ih
      _ = ((l.length + 1 : ℕ) : ℚ) * (1 / 20) := by push_cast; ring

theorem listSum_map_mul_const {α : Type} (l : List α) (g : α → ℚ) (k : ℚ) :
    (l.map fun c => g c * k).sum = (l.map g).sum * k := by
  induction l with
  | nil => simp
  | cons a l ih => simp [ih, add_mul]

/-- C9: `aircraft_class_breakdown` never divides by zero: with zero total
hours every percentage is 0, and with positive total hours the rounded
percentages sum to 100 within rounding error (1/20 per class). -/
theorem class_percentage_spec :
    (∀ fs : List Flight, ((classKeys fs).map (classHours fs)).sum = 0 →
        ∀ e ∈ get_aircraft_class_breakdown fs, e.percentage = 0) ∧
    (∀ fs : List Flight, 0 < ((classKeys fs).map (classHours fs)).sum →
        |((get_aircraft_class_breakdown fs).map (·.percentage)).sum - 100| ≤
          ((get_aircraft_class_breakdown fs).length : ℚ) * (1 / 20)) := by
  constructor
  · intro fs h0 e he
    simp only [get_aircraft_class_breakdown, List.mem_map] at he
    obtain ⟨c, hc, rfl⟩ := he
    simp only
    rw [if_neg (by rw [h0]; exact lt_irrefl 0), round1_zero]
  · intro fs hpos
    have hne : ((classKeys fs).map (classHours fs)).sum ≠ 0 := ne_of_gt hpos
    have hmap : (get_aircraft_class_breakdown fs).map (·.percentage) =
        ((classKeys fs).map fun c =>
          classHours fs c / ((classKeys fs).map (classHours fs)).sum * 100).map round1 := by
      simp only [get_aircraft_class_breakdown, List.map_map]
      refine List.map_congr_left fun c hc => ?_
      simp only [Function.comp_apply, if_pos hpos]
    have hlen : (get_aircraft_class_breakdown fs).length = (classKeys fs).length := by
      simp [get_aircraft_class_breakdown]
    have hsum : (((classKeys fs)).map fun c =>
        classHours fs c / ((classKeys fs).map (classHours fs)).sum * 100).sum = 100 := by
      have hfun : (fun c => classHours fs c /
          ((classKeys fs).map (classHours fs)).sum * 100) =
          fun c => classHours fs c * (100 / ((classKeys fs).map (classHours fs)).sum) := by
        funext c
        rw [div_mul_eq_mul_div, mul_div_assoc]
      rw [hfun, listSum_map_mul_const]
      field_simp
    rw [hmap, hlen]
    calc |(((classKeys fs).map fun c =>
            classHours fs c / ((classKeys fs).map (classHours fs)).sum * 100).map round1).sum - 100|
        = |(((classKeys fs).map fun c =>
            classHours fs c / ((classKeys fs).map (classHours fs)).sum * 100).map round1).sum -
              ((classKeys fs).map fun c =>
                classHours fs c / ((classKeys fs).map (classHours fs)).sum * 100).sum| := by
          rw [hsum]
      _ ≤ ((((classKeys fs).map fun c =>
            classHours fs c /
              ((classKeys fs).map (classHours fs)).sum * 100).length : ℕ) : ℚ) * (1 / 20) :=
          listSum_round1_err _
      _ = ((classKeys fs).length : ℚ) * (1 / 20) := by rw [List.length_map]

/-- Witness for `class_percentage_spec`: the zero-hours hypothesis on the
all-zero two-class ledger, the positive-hours hypothesis on the 3 h + 1 h
ledger. -/
theorem class_percentage_spec_witness :
    (((classKeys zeroHoursLedger).map (classHours zeroHoursLedger)).sum = 0 ∧
      ∀ e ∈ get_aircraft_class_breakdown zeroHoursLedger, e.percentage = 0) ∧
    (0 < ((classKeys classLedger).map (classHours classLedger)).sum ∧
      |((get_aircraft_class_breakdown classLedger).map (·.percentage)).sum - 100| ≤
        ((get_aircraft_class_breakdown classLedger).length : ℚ) * (1 / 20)) :=
  by
  have hkeys0 : classKeys zeroHoursLedger = ["Single Engine Land", "Multi Engine Land"] := by
    decide
  have hkeys1 : classKeys classLedger = ["Single Engine Land", "Multi Engine Land"] := by
    decide
  have hf0a : (zeroHoursLedger.filter fun f => f.plane_class == "Single Engine Land") =
      [baseFlight ⟨2025, 1, 1⟩] := by decide
  have hf0b : (zeroHoursLedger.filter fun f => f.plane_class == "Multi Engine Land") =
      [{ baseFlight ⟨2025, 1, 2⟩ with plane_class := "Multi Engine Land" }] := by decide
  have hf1a : (classLedger.filter fun f => f.plane_class == "Single Engine Land") =
      [{ baseFlight ⟨2025, 1, 1⟩ with flight_time := 3 }] := by decide
  have hf1b : (classLedger.filter fun f => f.plane_class == "Multi Engine Land") =
      [{ baseFlight ⟨2025, 1, 2⟩ with flight_time := 1, plane_class := "Multi Engine Land" }] := by
    decide
  refine ⟨⟨?_, class_percentage_spec.1 zeroHoursLedger ?_⟩,
      ⟨?_, class_percentage_spec.2 classLedger ?_⟩⟩ <;>
    norm_num [classHours, hkeys0, hkeys1, hf0a, hf0b, hf1a, hf1b, baseFlight]

/-! ### C5: one-decimal rounding at the output boundary -/

/-- C5: over one-decimal flight-time inputs, each `hours` value the monthly
breakdown returns equals its unrounded month sum rounded to 1 decimal, and
`total_times.total_time` is the rounded unrounded total. -/
theorem rounding_boundary_spec :
    ∀ (fs : List Flight) (today : Date),
      (∀ f ∈ fs, IsTenth f.flight_time) →
      (∀ e ∈ get_monthly_breakdown fs today 12,
          e.hours = round1 (monthHours fs (startDate today 12) e.month)) ∧
      (get_total_times fs).total_time = round1 ((fs.map (·.flight_time)).sum) := by
  intro fs today h
  constructor
  · intro e he
    simp only [get_monthly_breakdown, List.mem_map, List.mem_range] at he
    obtain ⟨i, hi, rfl⟩ := he
    simp only
    have ht : IsTenth (monthHours fs (startDate today 12) (startMonthIdx today 12 + i)) := by
      refine isTenth_mapSum fun f hf => h f ?_
      exact List.mem_of_mem_filter hf
    rw [ht.round1_eq]
  · rfl

/-- Witness for `rounding_boundary_spec` on the concrete 2.5/4.0/1.5 h
ledger. -/
theorem rounding_boundary_spec_witness :
    (∀ e ∈ get_monthly_breakdown breakdownLedger statToday 12,
        e.hours = round1 (monthHours breakdownLedger (startDate statToday 12) e.month)) ∧
    (get_total_times breakdownLedger).total_time =
      round1 ((breakdownLedger.map (·.flight_time)).sum) :=
  rounding_boundary_spec breakdownLedger statToday
    (by
      intro f hf
      fin_cases hf
      · exact ⟨25, by norm_num [baseFlight]⟩
      · exact ⟨40, by norm_num [baseFlight]⟩
      · exact ⟨15, by norm_num [baseFlight]⟩)

/-! ### C7: the 90-day landing window -/

set_option maxRecDepth 40000 in
/-- C7 counterexample: a single flight dated one day after the reference
date, with 3 day landings, is counted by the code (`date__gte` only), but
lies outside the claimed window `[as_of - 90 days, as_of]`. -/
theorem window_count_counterexample :
    (check_passenger_currency futureFlightLedger c7Today).day_landings ≠
      windowLandingSum dayCount futureFlightLedger c7Today := by
  decide

set_option maxRecDepth 40000 in
/-- C7 amended: the landing count sums landings over flights dated on or
after `as_of - 90 days` with no upper bound (future-dated flights are
included); currency holds iff that count reaches 3; the 95/70/40-days-ago
example yields a day count of 2 and no day currency. -/
theorem window_count_amended :
    ∀ (fs : List Flight) (today : Date),
      (check_passenger_currency fs today).day_landings =
          ((fs.filter fun f => decide (Date.le (Date.subDays today 90) f.date)).map dayCount).sum ∧
      ((check_passenger_currency fs today).day_current = true ↔
          3 ≤ (check_passenger_currency fs today).day_landings) ∧
      (check_passenger_currency fs today).night_landings =
          ((fs.filter fun f =>
            decide (Date.le (Date.subDays today 90) f.date)).map nightCount).sum ∧
      ((check_passenger_currency fs today).night_current = true ↔
          3 ≤ (check_passenger_currency fs today).night_landings) ∧
      ((check_passenger_currency staleLedger c7Today).day_landings = 2 ∧
        (check_passenger_currency staleLedger c7Today).day_current = false) := by
  have hstale : (check_passenger_currency staleLedger c7Today).day_landings = 2 ∧
      (check_passenger_currency staleLedger c7Today).day_current = false := by
    constructor <;> decide
  intro fs today
  refine ⟨rfl, ?_, rfl, ?_, hstale⟩ <;>
    · simp only [check_passenger_currency]
      exact decide_eq_true_iff

/-! ### C4: monthly-breakdown additivity -/

theorem listRange_map_sum (n : Nat) (g : Nat → ℚ) :
    ((List.range n).map g).sum = ∑ i ∈ Finset.range n, g i := by
  induction n with
  | zero => simp
  | succ n ih => rw [List.range_succ, Finset.sum_range_succ]; simp [ih]

theorem dateLe_day1_iff (t : Nat) (d : Date) (hd : d.valid) :
    Date.le ⟨t / 12, t % 12 + 1, 1⟩ d ↔ t ≤ d.monthIdx := by
  obtain ⟨h1, h2, h3, _⟩ := hd
  simp only [Date.le, Date.monthIdx]
  omega

theorem le_monthEnd_iff (T : Nat) (d : Date) (hd : d.valid) :
    Date.le d (monthEndOfIdx T) ↔ d.monthIdx ≤ T := by
  obtain ⟨h1, h2, h3, h4⟩ := hd
  simp only [Date.le, Date.monthIdx, monthEndOfIdx]
  by_cases hy : d.year = T / 12
  · by_cases hm : d.month = T % 12 + 1
    · have hk : daysInMonth d.year d.month = daysInMonth (T / 12) (T % 12 + 1) := by
        rw [hy, hm]
      omega
    · omega
  · omega

theorem monthHours_cons (f : Flight) (fs : List Flight) (st : Date) (t : Nat) :
    monthHours (f :: fs) st t =
      (if Date.le st f.date ∧ f.date.monthIdx = t then f.flight_time else 0) +
        monthHours fs st t := by
  unfold monthHours
  simp only [List.filter_cons]
  by_cases h1 : Date.le st f.date <;> by_cases h2 : f.date.monthIdx = t <;>
    simp [h1, h2]

theorem windowSum_cons (today : Date) (f : Flight) (fs : List Flight) :
    (((f :: fs).filter fun x => decide (inBreakdownWindow today x)).map (·.flight_time)).sum =
      (if inBreakdownWindow today f then f.flight_time else 0) +
        ((fs.filter fun x => decide (inBreakdownWindow today x)).map (·.flight_time)).sum := by
  simp only [List.filter_cons]
  by_cases h : inBreakdownWindow today f <;> simp [h]

theorem perFlight_bucket (today : Date) (f : Flight) (hf : f.date.valid) (ht : today.valid)
    (h11 : 11 ≤ today.monthIdx) :
    (∑ i ∈ Finset.range 12,
        if Date.le (startDate today 12) f.date ∧ f.date.monthIdx = startMonthIdx today 12 + i
        then f.flight_time else 0) =
      if inBreakdownWindow today f then f.flight_time else 0 := by
  have hs : startMonthIdx today 12 + 11 = today.monthIdx := by
    unfold startMonthIdx
    omega
  have h1 : Date.le (startDate today 12) f.date ↔ startMonthIdx today 12 ≤ f.date.monthIdx := by
    unfold startDate
    exact dateLe_day1_iff _ _ hf
  have h2 : inBreakdownWindow today f ↔
      startMonthIdx today 12 ≤ f.date.monthIdx ∧ f.date.monthIdx ≤ today.monthIdx := by
    unfold inBreakdownWindow
    rw [h1, le_monthEnd_iff _ _ hf]
  by_cases hin : startMonthIdx today 12 ≤ f.date.monthIdx ∧ f.date.monthIdx ≤ today.monthIdx
  · have hmem : f.date.monthIdx - startMonthIdx today 12 ∈ Finset.range 12 :=
      Finset.mem_range.mpr (by omega)
    have hzero : ∀ b ∈ Finset.range 12, b ≠ f.date.monthIdx - startMonthIdx today 12 →
        (if Date.le (startDate today 12) f.date ∧ f.date.monthIdx = startMonthIdx today 12 + b
         then f.flight_time else 0) = 0 := by
      intro b hb hbne
      rw [if_neg]
      rintro ⟨_, heq⟩
      exact hbne (by omega)
    rw [if_pos (h2.mpr hin), Finset.sum_eq_single_of_mem _ hmem hzero,
      if_pos ⟨h1.mpr hin.1, by omega⟩]
  · rw [if_neg fun hw => hin (h2.mp hw)]
    refine Finset.sum_eq_zero fun i hi => ?_
    have hi12 := Finset.mem_range.mp hi
    rw [if_neg]
    rintro ⟨hle, heq⟩
    rw [h1] at hle
    exact hin ⟨by omega, by omega⟩

theorem bucket_additive (today : Date) (ht : today.valid) (h11 : 11 ≤ today.monthIdx) :
    ∀ fs : List Flight, (∀ f ∈ fs, f.date.valid) →
      (∑ i ∈ Finset.range 12,
          monthHours fs (startDate today 12) (startMonthIdx today 12 + i)) =
        ((fs.filter fun f => decide (inBreakdownWindow today f)).map (·.flight_time)).sum := by
  intro fs
  induction fs with
  | nil => intro _; simp [monthHours]
  | cons f fs ih =>
    intro hv
    have hf := hv f (List.mem_cons_self f fs)
    have hfs : ∀ x ∈ fs, x.date.valid := fun x hx => hv x (List.mem_cons_of_mem f hx)
    simp only [monthHours_cons]
    rw [Finset.sum_add_distrib, ih hfs, perFlight_bucket today f hf ht h11, windowSum_cons]

/-- C4: the 12 bucket values of the monthly breakdown sum to the total flight
time of exactly the flights dated in the 12-calendar-month window (from the
first day of the month 11 months back through the end of the current month),
the bucket months are chronologically strictly ascending, and a bucket whose
month no flight falls in holds 0 hours. -/
theorem monthly_breakdown_additivity :
    ∀ (fs : List Flight) (today : Date),
      today.valid → 11 ≤ today.monthIdx → (∀ f ∈ fs, f.date.valid) →
      ((get_monthly_breakdown fs today 12).map (·.hours)).sum =
          ((fs.filter fun f => decide (inBreakdownWindow today f)).map (·.flight_time)).sum ∧
      ((get_monthly_breakdown fs today 12).map (·.month)).Pairwise (· < ·) ∧
      (∀ e ∈ get_monthly_breakdown fs today 12,
        (∀ f ∈ fs, f.date.monthIdx ≠ e.month) → e.hours = 0) := by
  intro fs today ht h11 hv
  refine ⟨?_, ?_, ?_⟩
  · have hmap : (get_monthly_breakdown fs today 12).map (·.hours) =
        (List.range 12).map fun i =>
          monthHours fs (startDate today 12) (startMonthIdx today 12 + i) := by
      simp [get_monthly_breakdown, List.map_map, Function.comp_def]
    rw [hmap, listRange_map_sum, bucket_additive today ht h11 fs hv]
  · have hmap : (get_monthly_breakdown fs today 12).map (·.month) =
        (List.range 12).map fun i => startMonthIdx today 12 + i := by
      simp [get_monthly_breakdown, List.map_map, Function.comp_def]
    rw [hmap]
    exact (List.pairwise_lt_range 12).map _ fun a b hab => by omega
  · intro e he hnone
    simp only [get_monthly_breakdown, List.mem_map, List.mem_range] at he
    obtain ⟨i, hi, rfl⟩ := he
    simp only at hnone ⊢
    unfold monthHours
    have hnil : (fs.filter fun f => decide (Date.le (startDate today 12) f.date) &&
        decide (f.date.monthIdx = startMonthIdx today 12 + i)) = [] := by
      rw [List.filter_eq_nil_iff]
      intro f hf
      simp only [Bool.and_eq_true, decide_eq_true_eq, not_and]
      intro _ heq
      exact hnone f hf heq
    rw [hnil]
    rfl

/-- Witness for `monthly_breakdown_additivity` on the 2.5/4.0/1.5 h ledger
around 2025-06-15. -/
theorem monthly_breakdown_additivity_witness :
    ((get_monthly_breakdown breakdownLedger statToday 12).map (·.hours)).sum =
        ((breakdownLedger.filter fun f =>
          decide (inBreakdownWindow statToday f)).map (·.flight_time)).sum ∧
    ((get_monthly_breakdown breakdownLedger statToday 12).map (·.month)).Pairwise (· < ·) ∧
    (∀ e ∈ get_monthly_breakdown breakdownLedger statToday 12,
      (∀ f ∈ breakdownLedger, f.date.monthIdx ≠ e.month) → e.hours = 0) :=
  monthly_breakdown_additivity breakdownLedger statToday (by decide) (by decide) (by decide)

/-! ### C6: instructor-leaderboard accumulation -/

theorem findEntry_addFlightEntry (acc : List InstructorEntry) (qid : Nat) (t : ℚ) (pid : Nat) :
    findEntry pid (addFlightEntry acc qid t) =
      if pid = qid then
        some (match findEntry pid acc with
          | some e =>
            ⟨e.pilotId, e.flight_count + 1, e.ground_count, e.flight_time + t, e.ground_time,
              e.total_time + t⟩
          | none => ⟨qid, 1, 0, t, 0, t⟩)
      else findEntry pid acc := by
  induction acc with
  | nil =>
    simp only [addFlightEntry, findEntry]
    by_cases h : pid = qid
    · rw [if_pos h.symm, if_pos h]
    · rw [if_neg fun hh => h hh.symm, if_neg h]
  | cons e rest ih =>
    simp only [addFlightEntry]
    by_cases he : e.pilotId = qid
    · rw [if_pos he]
      by_cases hp : e.pilotId = pid
      · have hpq : pid = qid := hp ▸ he
        simp [findEntry, hp, hpq]
      · have hpq : ¬pid = qid := fun hh => hp (by rw [he, ← hh])
        simp [findEntry, hp, hpq]
    · rw [if_neg he]
      by_cases hp : e.pilotId = pid
      · have hpq : ¬pid = qid := fun hh => he (by rw [hp, hh])
        simp [findEntry, hp, hpq]
      · simp [findEntry, hp, ih]

theorem findEntry_addGroundEntry (acc : List InstructorEntry) (qid : Nat) (t : ℚ) (pid : Nat) :
    findEntry pid (addGroundEntry acc qid t) =
      if pid = qid then
        some (match findEntry pid acc with
          | some e =>
            ⟨e.pilotId, e.flight_count, e.ground_count + 1, e.flight_time, e.ground_time + t,
              e.total_time + t⟩
          | none => ⟨qid, 0, 1, 0, t, t⟩)
      else findEntry pid acc := by
  induction acc with
  | nil =>
    simp only [addGroundEntry, findEntry]
    by_cases h : pid = qid
    · rw [if_pos h.symm, if_pos h]
    · rw [if_neg fun hh => h hh.symm, if_neg h]
  | cons e rest ih =>
    simp only [addGroundEntry]
    by_cases he : e.pilotId = qid
    · rw [if_pos he]
      by_cases hp : e.pilotId = pid
      · have hpq : pid = qid := hp ▸ he
        simp [findEntry, hp, hpq]
      · have hpq : ¬pid = qid := fun hh => hp (by rw [he, ← hh])
        simp [findEntry, hp, hpq]
    · rw [if_neg he]
      by_cases hp : e.pilotId = pid
      · have hpq : ¬pid = qid := fun hh => he (by rw [hp, hh])
        simp [findEntry, hp, hpq]
      · simp [findEntry, hp, ih]

theorem addFlightEntry_ft (acc : List InstructorEntry) (qid : Nat) (t : ℚ) (pid : Nat) :
    ((findEntry pid (addFlightEntry acc qid t)).map (·.flight_time)).getD 0 =
      ((findEntry pid acc).map (·.flight_time)).getD 0 + (if pid = qid then t else 0) := by
  rw [findEntry_addFlightEntry]
  by_cases h : pid = qid
  · rw [if_pos h, if_pos h]
    cases hfind : findEntry pid acc <;> simp
  · simp [h]

theorem addFlightEntry_fc (acc : List InstructorEntry) (qid : Nat) (t : ℚ) (pid : Nat) :
    ((findEntry pid (addFlightEntry acc qid t)).map (·.flight_count)).getD 0 =
      ((findEntry pid acc).map (·.flight_count)).getD 0 + (if pid = qid then 1 else 0) := by
  rw [findEntry_addFlightEntry]
  by_cases h : pid = qid
  · rw [if_pos h, if_pos h]
    cases hfind : findEntry pid acc <;> simp
  · simp [h]

theorem addFlightEntry_gt (acc : List InstructorEntry) (qid : Nat) (t : ℚ) (pid : Nat) :
    ((findEntry pid (addFlightEntry acc qid t)).map (·.ground_time)).getD 0 =
      ((findEntry pid acc).map (·.ground_time)).getD 0 := by
  rw [findEntry_addFlightEntry]
  by_cases h : pid = qid
  · rw [if_pos h]
    cases hfind : findEntry pid acc <;> simp
  · simp [h]

theorem addFlightEntry_gc (acc : List InstructorEntry) (qid : Nat) (t : ℚ) (pid : Nat) :
    ((findEntry pid (addFlightEntry acc qid t)).map (·.ground_count)).getD 0 =
      ((findEntry pid acc).map (·.ground_count)).getD 0 := by
  rw [findEntry_addFlightEntry]
  by_cases h : pid = qid
  · rw [if_pos h]
    cases hfind : findEntry pid acc <;> simp
  · simp [h]

theorem addFlightEntry_tt (acc : List InstructorEntry) (qid : Nat) (t : ℚ) (pid : Nat) :
    ((findEntry pid (addFlightEntry acc qid t)).map (·.total_time)).getD 0 =
      ((findEntry pid acc).map (·.total_time)).getD 0 + (if pid = qid then t else 0) := by
  rw [findEntry_addFlightEntry]
  by_cases h : pid = qid
  · rw [if_pos h, if_pos h]
    cases hfind : findEntry pid acc <;> simp
  · simp [h]

theorem addGroundEntry_gt (acc : List InstructorEntry) (qid : Nat) (t : ℚ) (pid : Nat) :
    ((findEntry pid (addGroundEntry acc qid t)).map (·.ground_time)).getD 0 =
      ((findEntry pid acc).map (·.ground_time)).getD 0 + (if pid = qid then t else 0) := by
  rw [findEntry_addGroundEntry]
  by_cases h : pid = qid
  · rw [if_pos h, if_pos h]
    cases hfind : findEntry pid acc <;> simp
  · simp [h]

theorem addGroundEntry_gc (acc : List InstructorEntry) (qid : Nat) (t : ℚ) (pid : Nat) :
    ((findEntry pid (addGroundEntry acc qid t)).map (·.ground_count)).getD 0 =
      ((findEntry pid acc).map (·.ground_count)).getD 0 + (if pid = qid then 1 else 0) := by
  rw [findEntry_addGroundEntry]
  by_cases h : pid = qid
  · rw [if_pos h, if_pos h]
    cases hfind : findEntry pid acc <;> simp
  · simp [h]

theorem addGroundEntry_ft (acc : List InstructorEntry) (qid : Nat) (t : ℚ) (pid : Nat) :
    ((findEntry pid (addGroundEntry acc qid t)).map (·.flight_time)).getD 0 =
      ((findEntry pid acc).map (·.flight_time)).getD 0 := by
  rw [findEntry_addGroundEntry]
  by_cases h : pid = qid
  · rw [if_pos h]
    cases hfind : findEntry pid acc <;> simp
  · simp [h]

theorem addGroundEntry_fc (acc : List InstructorEntry) (qid : Nat) (t : ℚ) (pid : Nat) :
    ((findEntry pid (addGroundEntry acc qid t)).map (·.flight_count)).getD 0 =
      ((findEntry pid acc).map (·.flight_count)).getD 0 := by
  rw [findEntry_addGroundEntry]
  by_cases h : pid = qid
  · rw [if_pos h]
    cases hfind : findEntry pid acc <;> simp
  · simp [h]

theorem addGroundEntry_tt (acc : List InstructorEntry) (qid : Nat) (t : ℚ) (pid : Nat) :
    ((findEntry pid (addGroundEntry acc qid t)).map (·.total_time)).getD 0 =
      ((findEntry pid acc).map (·.total_time)).getD 0 + (if pid = qid then t else 0) := by
  rw [findEntry_addGroundEntry]
  by_cases h : pid = qid
  · rw [if_pos h, if_pos h]
    cases hfind : findEntry pid acc <;> simp
  · simp [h]

theorem foldFlights_ft (l : List Flight) : ∀ (acc : List InstructorEntry) (pid : Nat),
    ((findEntry pid (l.foldl (fun acc f =>
        match f.instructor with
        | some p => addFlightEntry acc p.id f.flight_time
        | none => acc) acc)).map (·.flight_time)).getD 0 =
      ((findEntry pid acc).map (·.flight_time)).getD 0 +
        ((l.filter (instructorIdIs pid)).map (·.flight_time)).sum := by
  induction l with
  | nil => intro acc pid; simp
  | cons f l ih =>
    intro acc pid
    rw [List.foldl_cons, ih]
    cases hins : f.instructor with
    | none => simp [List.filter_cons, instructorIdIs, hins]
    | some p =>
      rw [addFlightEntry_ft]
      simp only [List.filter_cons, instructorIdIs, hins]
      by_cases hid : p.id = pid
      · rw [if_pos hid.symm]
        simp only [hid, beq_self_eq_true, if_true, List.map_cons, List.sum_cons]
        ring
      · rw [if_neg fun hh => hid hh.symm]
        have hb : (p.id == pid) = false := by simp [hid]
        simp [hb]

theorem foldFlights_fc (l : List Flight) : ∀ (acc : List InstructorEntry) (pid : Nat),
    ((findEntry pid (l.foldl (fun acc f =>
        match f.instructor with
        | some p => addFlightEntry acc p.id f.flight_time
        | none => acc) acc)).map (·.flight_count)).getD 0 =
      ((findEntry pid acc).map (·.flight_count)).getD 0 +
        (l.filter (instructorIdIs pid)).length := by
  induction l with
  | nil => intro acc pid; simp
  | cons f l ih =>
    intro acc pid
    rw [List.foldl_cons, ih]
    cases hins : f.instructor with
    | none => simp [List.filter_cons, instructorIdIs, hins]
    | some p =>
      rw [addFlightEntry_fc]
      simp only [List.filter_cons, instructorIdIs, hins]
      by_cases hid : p.id = pid
      · rw [if_pos hid.symm]
        simp only [hid, beq_self_eq_true, if_true, List.length_cons]
        omega
      · rw [if_neg fun hh => hid hh.symm]
        have hb : (p.id == pid) = false := by simp [hid]
        simp [hb]

theorem foldFlights_gt (l : List Flight) : ∀ (acc : List InstructorEntry) (pid : Nat),
    ((findEntry pid (l.foldl (fun acc f =>
        match f.instructor with
        | some p => addFlightEntry acc p.id f.flight_time
        | none => acc) acc)).map (·.ground_time)).getD 0 =
      ((findEntry pid acc).map (·.ground_time)).getD 0 := by
  induction l with
  | nil => intro acc pid; rfl
  | cons f l ih =>
    intro acc pid
    rw [List.foldl_cons, ih]
    cases hins : f.instructor with
    | none => rfl
    | some p => rw [addFlightEntry_gt]

theorem foldFlights_gc (l : List Flight) : ∀ (acc : List InstructorEntry) (pid : Nat),
    ((findEntry pid (l.foldl (fun acc f =>
        match f.instructor with
        | some p => addFlightEntry acc p.id f.flight_time
        | none => acc) acc)).map (·.ground_count)).getD 0 =
      ((findEntry pid acc).map (·.ground_count)).getD 0 := by
  induction l with
  | nil => intro acc pid; rfl
  | cons f l ih =>
    intro acc pid
    rw [List.foldl_cons, ih]
    cases hins : f.instructor with
    | none => rfl
    | some p => rw [addFlightEntry_gc]

theorem foldFlights_tt (l : List Flight) : ∀ (acc : List InstructorEntry) (pid : Nat),
    ((findEntry pid (l.foldl (fun acc f =>
        match f.instructor with
        | some p => addFlightEntry acc p.id f.flight_time
        | none => acc) acc)).map (·.total_time)).getD 0 =
      ((findEntry pid acc).map (·.total_time)).getD 0 +
        ((l.filter (instructorIdIs pid)).map (·.flight_time)).sum := by
  induction l with
  | nil => intro acc pid; simp
  | cons f l ih =>
    intro acc pid
    rw [List.foldl_cons, ih]
    cases hins : f.instructor with
    | none => simp [List.filter_cons, instructorIdIs, hins]
    | some p =>
      rw [addFlightEntry_tt]
      simp only [List.filter_cons, instructorIdIs, hins]
      by_cases hid : p.id = pid
      · rw [if_pos hid.symm]
        simp only [hid, beq_self_eq_true, if_true, List.map_cons, List.sum_cons]
        ring
      · rw [if_neg fun hh => hid hh.symm]
        have hb : (p.id == pid) = false := by simp [hid]
        simp [hb]

theorem foldGrounds_gt (l : List Ground) : ∀ (acc : List InstructorEntry) (pid : Nat),
    ((findEntry pid (l.foldl
        (fun acc g => addGroundEntry acc g.instructor.id g.ground_time) acc)).map
      (·.ground_time)).getD 0 =
      ((findEntry pid acc).map (·.ground_time)).getD 0 +
        ((l.filter fun g => g.instructor.id == pid).map (·.ground_time)).sum := by
  induction l with
  | nil => intro acc pid; simp
  | cons g l ih =>
    intro acc pid
    rw [List.foldl_cons, ih, addGroundEntry_gt]
    simp only [List.filter_cons]
    by_cases hid : g.instructor.id = pid
    · rw [if_pos hid.symm]
      simp only [hid, beq_self_eq_true, if_true, List.map_cons, List.sum_cons]
      ring
    · rw [if_neg fun hh => hid hh.symm]
      have hb : (g.instructor.id == pid) = false := by simp [hid]
      simp [hb]

theorem foldGrounds_gc (l : List Ground) : ∀ (acc : List InstructorEntry) (pid : Nat),
    ((findEntry pid (l.foldl
        (fun acc g => addGroundEntry acc g.instructor.id g.ground_time) acc)).map
      (·.ground_count)).getD 0 =
      ((findEntry pid acc).map (·.ground_count)).getD 0 +
        (l.filter fun g => g.instructor.id == pid).length := by
  induction l with
  | nil => intro acc pid; simp
  | cons g l ih =>
    intro acc pid
    rw [List.foldl_cons, ih, addGroundEntry_gc]
    simp only [List.filter_cons]
    by_cases hid : g.instructor.id = pid
    · rw [if_pos hid.symm]
      simp only [hid, beq_self_eq_true, if_true, List.length_cons]
      omega
    · rw [if_neg fun hh => hid hh.symm]
      have hb : (g.instructor.id == pid) = false := by simp [hid]
      simp [hb]

theorem foldGrounds_ft (l : List Ground) : ∀ (acc : List InstructorEntry) (pid : Nat),
    ((findEntry pid (l.foldl
        (fun acc g => addGroundEntry acc g.instructor.id g.ground_time) acc)).map
      (·.flight_time)).getD 0 =
      ((findEntry pid acc).map (·.flight_time)).getD 0 := by
  induction l with
  | nil => intro acc pid; rfl
  | cons g l ih =>
    intro acc pid
    rw [List.foldl_cons, ih, addGroundEntry_ft]

theorem foldGrounds_fc (l : List Ground) : ∀ (acc : List InstructorEntry) (pid : Nat),
    ((findEntry pid (l.foldl
        (fun acc g => addGroundEntry acc g.instructor.id g.ground_time) acc)).map
      (·.flight_count)).getD 0 =
      ((findEntry pid acc).map (·.flight_count)).getD 0 := by
  induction l with
  | nil => intro acc pid; rfl
  | cons g l ih =>
    intro acc pid
    rw [List.foldl_cons, ih, addGroundEntry_fc]

theorem foldGrounds_tt (l : List Ground) : ∀ (acc : List InstructorEntry) (pid : Nat),
    ((findEntry pid (l.foldl
        (fun acc g => addGroundEntry acc g.instructor.id g.ground_time) acc)).map
      (·.total_time)).getD 0 =
      ((findEntry pid acc).map (·.total_time)).getD 0 +
        ((l.filter fun g => g.instructor.id == pid).map (·.ground_time)).sum := by
  induction l with
  | nil => intro acc pid; simp
  | cons g l ih =>
    intro acc pid
    rw [List.foldl_cons, ih, addGroundEntry_tt]
    simp only [List.filter_cons]
    by_cases hid : g.instructor.id = pid
    · rw [if_pos hid.symm]
      simp only [hid, beq_self_eq_true, if_true, List.map_cons, List.sum_cons]
      ring
    · rw [if_neg fun hh => hid hh.symm]
      have hb : (g.instructor.id == pid) = false := by simp [hid]
      simp [hb]

theorem filter_qual_idIs (fs : List Flight) (pid : Nat) :
    (fs.filter fun f => qualInstructor f.instructor).filter (instructorIdIs pid) =
      fs.filter (flightOfInstructor pid) := by
  induction fs with
  | nil => rfl
  | cons f fs ih =>
    simp only [List.filter_cons, flightOfInstructor]
    by_cases h1 : qualInstructor f.instructor <;> by_cases h2 : instructorIdIs pid f <;>
      simp [h1, h2, List.filter_cons, ih]

theorem filter_qual_ground (gs : List Ground) (pid : Nat) :
    (gs.filter fun g => qualInstructor (some g.instructor)).filter
        (fun g => g.instructor.id == pid) =
      gs.filter (groundOfInstructor pid) := by
  induction gs with
  | nil => rfl
  | cons g gs ih =>
    simp only [List.filter_cons, groundOfInstructor]
    by_cases h1 : qualInstructor (some g.instructor) <;>
      by_cases h2 : (g.instructor.id == pid) = true <;>
      simp [h1, h2, List.filter_cons, ih]

theorem addFlightEntry_ids (acc : List InstructorEntry) (qid : Nat) (t : ℚ) :
    (addFlightEntry acc qid t).map (·.pilotId) =
      if qid ∈ acc.map (·.pilotId) then acc.map (·.pilotId)
      else acc.map (·.pilotId) ++ [qid] := by
  induction acc with
  | nil => simp [addFlightEntry]
  | cons e rest ih =>
    simp only [addFlightEntry, List.map_cons, List.mem_cons]
    by_cases he : e.pilotId = qid
    · rw [if_pos he, if_pos (Or.inl he.symm)]
      rfl
    · rw [if_neg he]
      simp only [List.map_cons, ih]
      by_cases hq : qid ∈ rest.map (·.pilotId)
      · rw [if_pos hq, if_pos (Or.inr hq)]
      · rw [if_neg hq, if_neg fun h => h.elim (fun h1 => he h1.symm) hq]
        simp

theorem addGroundEntry_ids (acc : List InstructorEntry) (qid : Nat) (t : ℚ) :
    (addGroundEntry acc qid t).map (·.pilotId) =
      if qid ∈ acc.map (·.pilotId) then acc.map (·.pilotId)
      else acc.map (·.pilotId) ++ [qid] := by
  induction acc with
  | nil => simp [addGroundEntry]
  | cons e rest ih =>
    simp only [addGroundEntry, List.map_cons, List.mem_cons]
    by_cases he : e.pilotId = qid
    · rw [if_pos he, if_pos (Or.inl he.symm)]
      rfl
    · rw [if_neg he]
      simp only [List.map_cons, ih]
      by_cases hq : qid ∈ rest.map (·.pilotId)
      · rw [if_pos hq, if_pos (Or.inr hq)]
      · rw [if_neg hq, if_neg fun h => h.elim (fun h1 => he h1.symm) hq]
        simp

theorem addFlightEntry_nodup {acc : List InstructorEntry} {qid : Nat} {t : ℚ}
    (h : (acc.map (·.pilotId)).Nodup) :
    ((addFlightEntry acc qid t).map (·.pilotId)).Nodup := by
  rw [addFlightEntry_ids]
  split
  · exact h
  · next hq => simp [List.nodup_append, h, hq]

theorem addGroundEntry_nodup {acc : List InstructorEntry} {qid : Nat} {t : ℚ}
    (h : (acc.map (·.pilotId)).Nodup) :
    ((addGroundEntry acc qid t).map (·.pilotId)).Nodup := by
  rw [addGroundEntry_ids]
  split
  · exact h
  · next hq => simp [List.nodup_append, h, hq]

theorem foldFlights_nodup (l : List Flight) : ∀ acc : List InstructorEntry,
    (acc.map (·.pilotId)).Nodup →
    ((l.foldl (fun acc f =>
        match f.instructor with
        | some p => addFlightEntry acc p.id f.flight_time
        | none => acc) acc).map (·.pilotId)).Nodup := by
  induction l with
  | nil => intro acc h; exact h
  | cons f l ih =>
    intro acc h
    rw [List.foldl_cons]
    refine ih _ ?_
    cases hins : f.instructor with
    | none => exact h
    | some p => exact addFlightEntry_nodup h

theorem foldGrounds_nodup (l : List Ground) : ∀ acc : List InstructorEntry,
    (acc.map (·.pilotId)).Nodup →
    ((l.foldl (fun acc g => addGroundEntry acc g.instructor.id g.ground_time) acc).map
      (·.pilotId)).Nodup := by
  induction l with
  | nil => intro acc h; exact h
  | cons g l ih =>
    intro acc h
    rw [List.foldl_cons]
    exact ih _ (addGroundEntry_nodup h)

theorem instructorStats_nodup (fs : List Flight) (gs : List Ground) :
    ((instructorStats fs gs).map (·.pilotId)).Nodup := by
  unfold instructorStats
  exact foldGrounds_nodup _ _ (foldFlights_nodup _ _ (by simp))

theorem findEntry_self : ∀ {acc : List InstructorEntry}, (acc.map (·.pilotId)).Nodup →
    ∀ {e : InstructorEntry}, e ∈ acc → findEntry e.pilotId acc = some e := by
  intro acc
  induction acc with
  | nil => intro _ e he; cases he
  | cons a rest ih =>
    intro hnd e he
    simp only [List.map_cons, List.nodup_cons] at hnd
    rcases List.mem_cons.mp he with rfl | hmem
    · simp [findEntry]
    · have hne : a.pilotId ≠ e.pilotId :=
        fun hh => hnd.1 (hh ▸ List.mem_map_of_mem (·.pilotId) hmem)
    -- the first entry does not share the id, so lookup continues in the tail
      simp only [findEntry, if_neg hne]
      exact ih hnd.2 hmem

theorem instructorStats_fields (fs : List Flight) (gs : List Ground) :
    ∀ e ∈ instructorStats fs gs,
      e.flight_time = ((fs.filter (flightOfInstructor e.pilotId)).map (·.flight_time)).sum ∧
      e.flight_count = (fs.filter (flightOfInstructor e.pilotId)).length ∧
      e.ground_time = ((gs.filter (groundOfInstructor e.pilotId)).map (·.ground_time)).sum ∧
      e.ground_count = (gs.filter (groundOfInstructor e.pilotId)).length ∧
      e.total_time = e.flight_time + e.ground_time := by
  intro e he
  have hfind := findEntry_self (instructorStats_nodup fs gs) he
  have hft : ((findEntry e.pilotId (instructorStats fs gs)).map (·.flight_time)).getD 0 =
      ((fs.filter (flightOfInstructor e.pilotId)).map (·.flight_time)).sum := by
    unfold instructorStats
    rw [foldGrounds_ft, foldFlights_ft, filter_qual_idIs]
    simp [findEntry]
  have hfc : ((findEntry e.pilotId (instructorStats fs gs)).map (·.flight_count)).getD 0 =
      (fs.filter (flightOfInstructor e.pilotId)).length := by
    unfold instructorStats
    rw [foldGrounds_fc, foldFlights_fc, filter_qual_idIs]
    simp [findEntry]
  have hgt : ((findEntry e.pilotId (instructorStats fs gs)).map (·.ground_time)).getD 0 =
      ((gs.filter (groundOfInstructor e.pilotId)).map (·.ground_time)).sum := by
    unfold instructorStats
    rw [foldGrounds_gt, foldFlights_gt, filter_qual_ground]
    simp [findEntry]
  have hgc : ((findEntry e.pilotId (instructorStats fs gs)).map (·.ground_count)).getD 0 =
      (gs.filter (groundOfInstructor e.pilotId)).length := by
    unfold instructorStats
    rw [foldGrounds_gc, foldFlights_gc, filter_qual_ground]
    simp [findEntry]
  have htt : ((findEntry e.pilotId (instructorStats fs gs)).map (·.total_time)).getD 0 =
      ((fs.filter (flightOfInstructor e.pilotId)).map (·.flight_time)).sum +
        ((gs.filter (groundOfInstructor e.pilotId)).map (·.ground_time)).sum := by
    unfold instructorStats
    rw [foldGrounds_tt, foldFlights_tt, filter_qual_idIs, filter_qual_ground]
    simp [findEntry]
  rw [hfind] at hft hfc hgt hgc htt
  simp only [Option.map_some', Option.getD_some] at hft hfc hgt hgc htt
  exact ⟨hft, hfc, hgt, hgc, by rw [htt, hft, hgt]⟩

/-- C6: every leaderboard entry carries the per-instructor tallies taken
separately over flights and ground sessions (count and time each), with
`total_time = flight_time + ground_time`; the list is sorted descending by
total time and truncated to `limit`; and on the concrete ledger instructor B
(one 10.0 h flight) ranks above instructor A (3.0 h + 2.0 h flights and a
1.0 h ground session, total 6.0). -/
theorem instructor_leaderboard_spec :
    (∀ (fs : List Flight) (gs : List Ground) (limit : Nat),
      (∀ f ∈ fs, IsTenth f.flight_time) → (∀ g ∈ gs, IsTenth g.ground_time) →
      (∀ e ∈ get_instructor_leaderboard fs gs limit,
          e.flight_time = ((fs.filter (flightOfInstructor e.pilotId)).map (·.flight_time)).sum ∧
          e.flight_count = (fs.filter (flightOfInstructor e.pilotId)).length ∧
          e.ground_time = ((gs.filter (groundOfInstructor e.pilotId)).map (·.ground_time)).sum ∧
          e.ground_count = (gs.filter (groundOfInstructor e.pilotId)).length ∧
          e.total_time = e.flight_time + e.ground_time) ∧
      (get_instructor_leaderboard fs gs limit).Pairwise totalTimeGE ∧
      (get_instructor_leaderboard fs gs limit).length ≤ limit) ∧
    get_instructor_leaderboard leaderboardFlights leaderboardGrounds 10 =
      [⟨2, 1, 0, 10, 0, 10⟩, ⟨1, 2, 1, 5, 1, 6⟩] := by
  constructor
  · intro fs gs limit hfs hgs
    have htenths : ∀ e ∈ instructorStats fs gs,
        IsTenth e.flight_time ∧ IsTenth e.ground_time ∧ IsTenth e.total_time := by
      intro e he
      obtain ⟨h1, _, h3, _, h5⟩ := instructorStats_fields fs gs e he
      have hf : IsTenth e.flight_time := by
        rw [h1]
        exact isTenth_mapSum fun x hx => hfs x (List.mem_of_mem_filter hx)
      have hg : IsTenth e.ground_time := by
        rw [h3]
        exact isTenth_mapSum fun x hx => hgs x (List.mem_of_mem_filter hx)
      exact ⟨hf, hg, by rw [h5]; exact hf.add hg⟩
    have hlead : get_instructor_leaderboard fs gs limit =
        (List.insertionSort totalTimeGE (instructorStats fs gs)).take limit := by
      unfold get_instructor_leaderboard
      have hid : ∀ e ∈ (List.insertionSort totalTimeGE (instructorStats fs gs)).take limit,
          (fun e : InstructorEntry =>
            { e with
              flight_time := round1 e.flight_time
              ground_time := round1 e.ground_time
              total_time := round1 e.total_time }) e = id e := by
        intro e he
        have hmem : e ∈ instructorStats fs gs :=
          ((List.perm_insertionSort totalTimeGE _).mem_iff).mp (List.take_subset _ _ he)
        obtain ⟨hf, hg, ht⟩ := htenths e hmem
        simp only [id, hf.round1_eq, hg.round1_eq, ht.round1_eq]
      rw [List.map_congr_left hid, List.map_id]
    refine ⟨?_, ?_, ?_⟩
    · intro e he
      rw [hlead] at he
      exact instructorStats_fields fs gs e
        (((List.perm_insertionSort totalTimeGE _).mem_iff).mp (List.take_subset _ _ he))
    · rw [hlead]
      exact List.Pairwise.sublist (List.take_sublist _ _)
        (List.sorted_insertionSort totalTimeGE _)
    · rw [hlead, List.length_take]
      exact min_le_left _ _
  · have hqf : leaderboardFlights.filter (fun f => qualInstructor f.instructor) =
        leaderboardFlights := by decide
    have hqg : leaderboardGrounds.filter (fun g => qualInstructor (some g.instructor)) =
        leaderboardGrounds := by decide
    have hstats : instructorStats leaderboardFlights leaderboardGrounds =
        [⟨1, 2, 1, 5, 1, 6⟩, ⟨2, 1, 0, 10, 0, 10⟩] := by
      unfold instructorStats
      rw [hqf, hqg]
      norm_num [leaderboardFlights, leaderboardGrounds, baseFlight, instrA, instrB,
        addFlightEntry, addGroundEntry]
    have hsort : List.insertionSort totalTimeGE
        [(⟨1, 2, 1, 5, 1, 6⟩ : InstructorEntry), ⟨2, 1, 0, 10, 0, 10⟩] =
        [⟨2, 1, 0, 10, 0, 10⟩, ⟨1, 2, 1, 5, 1, 6⟩] := by
      norm_num [List.insertionSort, List.orderedInsert, totalTimeGE]
    unfold get_instructor_leaderboard
    simp only [hstats, hsort]
    rw [List.take_of_length_le (by norm_num)]
    norm_num [round1, round_eq]

/-- Witness for `instructor_leaderboard_spec` on the A/B instructor ledger. -/
theorem instructor_leaderboard_spec_witness :
    (∀ e ∈ get_instructor_leaderboard leaderboardFlights leaderboardGrounds 10,
        e.flight_time = ((leaderboardFlights.filter (flightOfInstructor e.pilotId)).map
            (·.flight_time)).sum ∧
        e.flight_count = (leaderboardFlights.filter (flightOfInstructor e.pilotId)).length ∧
        e.ground_time = ((leaderboardGrounds.filter (groundOfInstructor e.pilotId)).map
            (·.ground_time)).sum ∧
        e.ground_count = (leaderboardGrounds.filter (groundOfInstructor e.pilotId)).length ∧
        e.total_time = e.flight_time + e.ground_time) ∧
    (get_instructor_leaderboard leaderboardFlights leaderboardGrounds 10).Pairwise totalTimeGE ∧
    (get_instructor_leaderboard leaderboardFlights leaderboardGrounds 10).length ≤ 10 :=
  instructor_leaderboard_spec.1 leaderboardFlights leaderboardGrounds 10
    (by
      intro f hf
      fin_cases hf
      · exact ⟨30, by norm_num [baseFlight]⟩
      · exact ⟨20, by norm_num [baseFlight]⟩
      · exact ⟨100, by norm_num [baseFlight]⟩)
    (by
      intro g hg
      fin_cases hg
      exact ⟨10, by norm_num⟩)

/-! ### C1: currency-expiry characterization -/

theorem scanExpiry_none (cnt : Flight → Nat) :
    ∀ (l : List Flight) (c : Nat), c < 3 →
      (scanExpiry cnt c l = none ↔ c + (l.map cnt).sum < 3) := by
  intro l
  induction l with
  | nil => intro c hc; simp [scanExpiry, hc]
  | cons f l ih =>
    intro c hc
    rw [scanExpiry]
    by_cases h : 3 ≤ c + cnt f
    · rw [if_pos h]
      simp only [List.map_cons, List.sum_cons]
      constructor
      · intro hh; cases hh
      · intro hh; exact absurd hh (by omega)
    · rw [if_neg h, ih (c + cnt f) (by omega)]
      simp only [List.map_cons, List.sum_cons]
      omega

theorem scanExpiry_some (cnt : Flight → Nat) :
    ∀ (l : List Flight) (c : Nat) (e : Date),
      l.Pairwise byDateDesc → (∀ f ∈ l, 0 < cnt f) → c < 3 → scanExpiry cnt c l = some e →
      ∃ f0, f0 ∈ l ∧ 0 < cnt f0 ∧ e = Date.addDays f0.date 90 ∧
        3 ≤ c + ((l.filter fun x => decide (Date.le f0.date x.date)).map cnt).sum ∧
        c + ((l.filter fun x => decide (¬Date.le x.date f0.date)).map cnt).sum < 3 := by
  intro l
  induction l with
  | nil => intro c e _ _ _ h; cases h
  | cons f l ih =>
    intro c e hsort hpos hc hscan
    have hrestle : ∀ x ∈ l, Date.le x.date f.date := (List.pairwise_cons.mp hsort).1
    have hsortrest := (List.pairwise_cons.mp hsort).2
    rw [scanExpiry] at hscan
    by_cases h : 3 ≤ c + cnt f
    · rw [if_pos h] at hscan
      refine ⟨f, List.mem_cons_self f l, hpos f (List.mem_cons_self f l),
        (Option.some.inj hscan).symm, ?_, ?_⟩
      · have hff : decide (Date.le f.date f.date) = true := decide_eq_true (Date.le_refl f.date)
        simp only [List.filter_cons, hff, if_true, List.map_cons, List.sum_cons]
        omega
      · have hnil : ((f :: l).filter fun x => decide (¬Date.le x.date f.date)) = [] := by
          rw [List.filter_eq_nil_iff]
          intro a ha
          rcases List.mem_cons.mp ha with rfl | hmem
          · simp [Date.le_refl]
          · simp [hrestle a hmem]
        rw [hnil]
        simpa using hc
    · rw [if_neg h] at hscan
      obtain ⟨f0, hmem, hp0, heq, hge, hlt⟩ :=
        ih (c + cnt f) e hsortrest (fun x hx => hpos x (List.mem_cons_of_mem f hx))
          (by omega) hscan
      have hf0f : decide (Date.le f0.date f.date) = true := decide_eq_true (hrestle f0 hmem)
      refine ⟨f0, List.mem_cons_of_mem f hmem, hp0, heq, ?_, ?_⟩
      · simp only [List.filter_cons, hf0f, if_true, List.map_cons, List.sum_cons]
        omega
      · by_cases hstrict : Date.le f.date f0.date
        · have hb : decide (¬Date.le f.date f0.date) = false := by simp [hstrict]
          simp only [List.filter_cons, hb, Bool.false_eq_true, if_false]
          omega
        · have hb : decide (¬Date.le f.date f0.date) = true := by simp [hstrict]
          simp only [List.filter_cons, hb, if_true, List.map_cons, List.sum_cons]
          omega

theorem filteredSum_eq (cnt : Flight → Nat) (p : Flight → Bool) :
    ∀ fs : List Flight,
      (((fs.filter fun f => decide (0 < cnt f)).filter p).map cnt).sum =
        ((fs.filter p).map cnt).sum := by
  intro fs
  induction fs with
  | nil => rfl
  | cons f fs ih =>
    by_cases hz : 0 < cnt f
    · have hb : decide (0 < cnt f) = true := decide_eq_true hz
      by_cases hp : p f
      · simp only [List.filter_cons, hb, hp, if_true, List.map_cons, List.sum_cons]
        rw [ih]
      · simp only [List.filter_cons, hb, hp, if_true, Bool.false_eq_true, if_false]
        exact ih
    · have h0 : cnt f = 0 := by omega
      have hb : decide (0 < cnt f) = false := by simp [hz]
      by_cases hp : p f
      · simp only [List.filter_cons, hb, hp, if_true, Bool.false_eq_true, if_false,
          List.map_cons, List.sum_cons]
        rw [ih, h0]
        omega
      · simp only [List.filter_cons, hb, hp, Bool.false_eq_true, if_false]
        exact ih

theorem posFilterSum (cnt : Flight → Nat) :
    ∀ fs : List Flight,
      ((fs.filter fun f => decide (0 < cnt f)).map cnt).sum = (fs.map cnt).sum := by
  intro fs
  induction fs with
  | nil => rfl
  | cons f fs ih =>
    by_cases hz : 0 < cnt f
    · have hb : decide (0 < cnt f) = true := decide_eq_true hz
      simp only [List.filter_cons, hb, if_true, List.map_cons, List.sum_cons]
      rw [ih]
    · have h0 : cnt f = 0 := by omega
      have hb : decide (0 < cnt f) = false := by simp [hz]
      simp only [List.filter_cons, hb, Bool.false_eq_true, if_false, List.map_cons,
        List.sum_cons]
      rw [ih, h0]
      omega

theorem currencyExpiry_char (cnt : Flight → Nat) (fs : List Flight) :
    (currencyExpiry cnt fs = none ↔ (fs.map cnt).sum < 3) ∧
    ∀ e, currencyExpiry cnt fs = some e →
      ∃ f0, f0 ∈ fs ∧ 0 < cnt f0 ∧ e = Date.addDays f0.date 90 ∧
        3 ≤ ((fs.filter fun x => decide (Date.le f0.date x.date)).map cnt).sum ∧
        ((fs.filter fun x => decide (¬Date.le x.date f0.date)).map cnt).sum < 3 := by
  have hperm : (List.insertionSort byDateDesc
      (fs.filter fun f => decide (0 < cnt f))).Perm (fs.filter fun f => decide (0 < cnt f)) :=
    List.perm_insertionSort _ _
  have hsort : (List.insertionSort byDateDesc
      (fs.filter fun f => decide (0 < cnt f))).Pairwise byDateDesc :=
    List.sorted_insertionSort byDateDesc _
  have hpos : ∀ f ∈ List.insertionSort byDateDesc
      (fs.filter fun f => decide (0 < cnt f)), 0 < cnt f := by
    intro f hf
    have hmem := hperm.mem_iff.mp hf
    have := List.of_mem_filter hmem
    simpa using this
  constructor
  · rw [show currencyExpiry cnt fs =
        scanExpiry cnt 0 (List.insertionSort byDateDesc
          (fs.filter fun f => decide (0 < cnt f))) from rfl]
    rw [scanExpiry_none cnt _ 0 (by omega)]
    have hsum : ((List.insertionSort byDateDesc
        (fs.filter fun f => decide (0 < cnt f))).map cnt).sum = (fs.map cnt).sum := by
      rw [(hperm.map cnt).sum_eq]
      exact posFilterSum cnt fs
    omega
  · intro e he
    rw [show currencyExpiry cnt fs =
        scanExpiry cnt 0 (List.insertionSort byDateDesc
          (fs.filter fun f => decide (0 < cnt f))) from rfl] at he
    obtain ⟨f0, hmem, hp0, heq, hge, hlt⟩ :=
      scanExpiry_some cnt _ 0 e hsort hpos (by omega) he
    have hmem' : f0 ∈ fs := List.mem_of_mem_filter (hperm.mem_iff.mp hmem)
    have h1 : ∀ p : Flight → Bool,
        (((List.insertionSort byDateDesc
          (fs.filter fun f => decide (0 < cnt f))).filter p).map cnt).sum =
          ((fs.filter p).map cnt).sum := by
      intro p
      rw [((hperm.filter p).map cnt).sum_eq]
      exact filteredSum_eq cnt p fs
    refine ⟨f0, hmem', hp0, heq, ?_, ?_⟩
    · have := h1 fun x => decide (Date.le f0.date x.date)
      omega
    · have := h1 fun x => decide (¬Date.le x.date f0.date)
      omega

/-- C1: for both day and night landings, the expiry field of
`check_passenger_currency` is null iff the ledger holds fewer than 3 such
landings in total; otherwise it equals `d + 90 days` where `d` is the date of
a landing flight such that the landings on flights dated `>= d` reach 3 while
those on flights dated strictly after `d` do not — exactly the first flight
at which the descending-date running count reaches 3. -/
theorem currency_expiry_characterization :
    ∀ (fs : List Flight) (today : Date),
      ((check_passenger_currency fs today).day_expiry = none ↔ (fs.map dayCount).sum < 3) ∧
      (∀ e, (check_passenger_currency fs today).day_expiry = some e →
        ∃ f0, f0 ∈ fs ∧ 0 < dayCount f0 ∧ e = Date.addDays f0.date 90 ∧
          3 ≤ ((fs.filter fun x => decide (Date.le f0.date x.date)).map dayCount).sum ∧
          ((fs.filter fun x => decide (¬Date.le x.date f0.date)).map dayCount).sum < 3) ∧
      ((check_passenger_currency fs today).night_expiry = none ↔
        (fs.map nightCount).sum < 3) ∧
      (∀ e, (check_passenger_currency fs today).night_expiry = some e →
        ∃ f0, f0 ∈ fs ∧ 0 < nightCount f0 ∧ e = Date.addDays f0.date 90 ∧
          3 ≤ ((fs.filter fun x => decide (Date.le f0.date x.date)).map nightCount).sum ∧
          ((fs.filter fun x => decide (¬Date.le x.date f0.date)).map nightCount).sum < 3) := by
  intro fs today
  have hd := currencyExpiry_char dayCount fs
  have hn := currencyExpiry_char nightCount fs
  exact ⟨hd.1, hd.2, hn.1, hn.2⟩

set_option maxRecDepth 40000 in
/-- Witness for `currency_expiry_characterization`: on the three-flight
ledger the day expiry is 90 days after the earliest flight, and the
characterizing sums are exhibited there. -/
theorem currency_expiry_characterization_witness :
    (check_passenger_currency currencyLedger ⟨2025, 6, 1⟩).day_expiry =
        some (Date.addDays ⟨2025, 1, 1⟩ 90) ∧
    ∃ f0, f0 ∈ currencyLedger ∧ 0 < dayCount f0 ∧
      Date.addDays ⟨2025, 1, 1⟩ 90 = Date.addDays f0.date 90 ∧
      3 ≤ ((currencyLedger.filter fun x =>
          decide (Date.le f0.date x.date)).map dayCount).sum ∧
      ((currencyLedger.filter fun x =>
          decide (¬Date.le x.date f0.date)).map dayCount).sum < 3 :=
  ⟨by decide,
    (currency_expiry_characterization currencyLedger ⟨2025, 6, 1⟩).2.1
      (Date.addDays ⟨2025, 1, 1⟩ 90) (by decide)⟩

end FlightLog
